import Mathlib

/-!
Views, owning Arrays and coordinators of the memory library

A shallow embedding of include/array_base.h (class ArrayBase), of the owning
Array of include/Array.h and of the coordinators of include/device_coordinator.h
and include/DeviceCoordinator.h, with the Storage container of the storage test
modelled from its specification.

Conventions of the embedding

* A pointer T* is a natural number: the index of an element slot in a flat
  address space counted in units of T.  The null pointer is 0.  Pointer
  arithmetic p+n is addition of naturals (C++ leaves pointer overflow
  undefined, so it is not wrapped).
* size_type is std::size_t, taken as 64 bit: values are naturals below
  SIZE_MOD and subtraction wraps modulo SIZE_MOD.
* The assertions of the source are compiled only when NDEBUG is not defined.
  The flag checked is true for such a build.  A failed assertion aborts the
  program: the embedded function returns none.
* The std::cerr trace lines of the debug build carry no state and are left out.
* The element memory is a function from addresses to values of the element
  type T.  The allocator behind a coordinator is a parameter; the calls made on
  it and the blocks it has handed out are recorded in a Heap.
* Array objects are told apart by a natural number, their identity; an
  operation that takes an Array by reference takes its identity.
* A copy between memory spaces takes the host memory and the device memory as
  two separate functions from addresses to values.
-/

namespace memory

/-! ## Definitions -/

/-- Modulus of size_type (std::size_t on a 64 bit target). -/
def SIZE_MOD : Nat := 2 ^ 64

/-- Subtraction a-b of two size_type values, wrapping as unsigned arithmetic does. -/
def size_sub (a b : Nat) : Nat := (a + SIZE_MOD - b) % SIZE_MOD

/-- The assert macro: in a checked build a false condition aborts (none),
in an NDEBUG build the condition is not evaluated. -/
def cassert (checked : Bool) (cond : Bool) : Option Unit :=
  if checked && !cond then none else some ()

/-- State of an ArrayBase: the private members pointer_ and size_
(array_base.h lines 210-211). -/
structure ArrayBase where
  pointer_ : Nat
  size_ : Nat
deriving DecidableEq

namespace ArrayBase

/-- ArrayBase() : pointer_(nullptr), size_(0)  (array_base.h line 71). -/
def default_ctor : ArrayBase := ⟨0, 0⟩

/-- The accessor data()  (array_base.h lines 157-163). -/
def data (v : ArrayBase) : Nat := v.pointer_

/-- The accessor size()  (array_base.h lines 193-195). -/
def size (v : ArrayBase) : Nat := v.size_

/-- The predicate is_empty()  (array_base.h lines 189-191). -/
def is_empty (v : ArrayBase) : Bool := v.size_ == 0

/-- The member reset(): null pointer and length 0  (array_base.h lines 145-148). -/
def reset (_v : ArrayBase) : ArrayBase := ⟨0, 0⟩

/-- The member set(ptr, sz)  (array_base.h lines 151-154). -/
def set (_v : ArrayBase) (ptr sz : Nat) : ArrayBase := ⟨ptr, sz⟩

/-- The call operator()(left, right)  (array_base.h lines 75-85):
two assertions, then ArrayBase(pointer_+left, right-left). -/
def operator_call (checked : Bool) (v : ArrayBase) (left right : Nat) : Option ArrayBase := do
  cassert checked (decide (left ≤ right))
  cassert checked (decide (right ≤ v.size_))
  pure ⟨v.pointer_ + left, size_sub right left⟩

/-- The call operator()(left, end)  (array_base.h lines 88-97):
one assertion, then ArrayBase(pointer_+left, size_-left). -/
def operator_call_end (checked : Bool) (v : ArrayBase) (left : Nat) : Option ArrayBase := do
  cassert checked (decide (left ≤ v.size_))
  pure ⟨v.pointer_ + left, size_sub v.size_ left⟩

/-- The call operator()(all)  (array_base.h lines 100-108): no assertion. -/
def operator_call_all (v : ArrayBase) : ArrayBase := ⟨v.pointer_, v.size_⟩

/-- The comparison operator==  (array_base.h lines 198-200):
other.size_==size_ && other.pointer_==pointer_. -/
def operator_eq (v other : ArrayBase) : Bool :=
  (other.size_ == v.size_) && (other.pointer_ == v.pointer_)

/-- The member overlaps  (array_base.h lines 203-206):
not (data() >= other.data()+other.size() or other.data() >= data()+size()). -/
def overlaps (v other : ArrayBase) : Bool :=
  !(decide (v.data ≥ other.data + other.size) || decide (other.data ≥ v.data + v.size))

/-- The half-open address range [data(), data()+size()) of a view contains x. -/
def in_range (v : ArrayBase) (x : Nat) : Prop := v.data ≤ x ∧ x < v.data + v.size

instance (v : ArrayBase) (x : Nat) : Decidable (v.in_range x) := by
  unfold in_range; infer_instance

end ArrayBase

/-- Modelled from the spec: the class ArrayView of ArrayView.h, which is not
among the sources.  The spec describes a View as the descriptor
(pointer, length) with a memory-space tag fixed at compile time; Array derives
from it, and ArrayBase carries the same two members. -/
abbrev ArrayView := ArrayBase

/-- Modelled from the spec: the default constructor of ArrayView (ArrayView.h is
not among the sources), the empty state with null pointer and size 0, as
ArrayBase() of array_base.h line 71. -/
def ArrayView.default_ctor : ArrayView := ArrayBase.default_ctor

/-- Modelled from the spec: the member ArrayView::swap(other) of ArrayView.h,
which is not among the sources.  The spec says that a move
"swaps internal View state with other".  The result is the pair
(this, other) after the call. -/
def ArrayView.swap (self other : ArrayView) : ArrayView × ArrayView := (other, self)

/-- The move constructor Array(Array&& other)  (Array.h lines 141-146): no member
initialiser, so the base sub-object is default constructed; the body is
base::swap(other).  The coordinator_ member is a stateless strategy object and
is not part of the state.  The result is the pair (this, other) after the call. -/
def Array.move_ctor (other : ArrayView) : ArrayView × ArrayView :=
  ArrayView.swap ArrayView.default_ctor other

/-- The move assignment operator=(Array&& other)  (Array.h lines 148-154): the body
is base::swap(other); return *this.  The result is the pair (this, other) after
the call. -/
def Array.move_assign (self other : ArrayView) : ArrayView × ArrayView :=
  ArrayView.swap self other

/-! ### Allocators, memory and the device coordinators -/

/-- Modelled from the spec: the outcome of a call allocator.allocate(n).
Allocator.h and the CUDA allocators are not among the sources; the spec says
that an allocator "fails (returns null or raises an allocation error)".
block p is a returned pointer (p = 0 is the null pointer), raise is a raised
allocation error. -/
inductive AllocResult where
  | block (p : Nat)
  | raise
deriving DecidableEq

/-- One call made on an allocator: allocate(n) with the pointer it returned, or
deallocate(p, n). -/
inductive AllocCall where
  | allocate (n : Nat) (p : Nat)
  | deallocate (p : Nat) (n : Nat)
deriving DecidableEq

/-- The recorded call is an allocate. -/
def AllocCall.is_allocate : AllocCall → Bool
  | .allocate _ _ => true
  | .deallocate _ _ => false

/-- The recorded call is a deallocate. -/
def AllocCall.is_deallocate : AllocCall → Bool
  | .allocate _ _ => false
  | .deallocate _ _ => true

/-- Modelled from the spec: the state behind the allocators (Allocator.h is not
among the sources).  live lists the blocks (pointer, length) handed out and not
yet given back, calls is the trace of every allocator call in order, and
bad_free records whether some deallocate named a block that was not allocated
at that moment (a second or stray release). -/
structure Heap where
  live : List (Nat × Nat)
  calls : List AllocCall
  bad_free : Bool
deriving DecidableEq

/-- The heap before any allocator call. -/
def Heap.init : Heap := ⟨[], [], false⟩

/-- Modelled from the spec: an allocator strategy, "allocate(n) -> pointer",
taken as a parameter: which pointer (or failure) a request for n elements gets
in a given heap state.  The allocator objects of the source are stateless
locals (the line Allocator allocator;). -/
abbrev Allocator := Heap → Nat → AllocResult

/-- The call allocator.allocate(n): none when the allocator raises, otherwise the
returned pointer and the heap with the call recorded (a non-null block becomes
live). -/
def Heap.allocate (A : Allocator) (h : Heap) (n : Nat) : Option (Nat × Heap) :=
  match A h n with
  | .raise => none
  | .block p =>
    some (p, { live := if p = 0 then h.live else (p, n) :: h.live,
               calls := h.calls ++ [AllocCall.allocate n p],
               bad_free := h.bad_free })

/-- The call allocator.deallocate(p, n): the call is recorded and the block
leaves the live list. -/
def Heap.deallocate (h : Heap) (p n : Nat) : Heap :=
  { live := h.live.erase (p, n),
    calls := h.calls ++ [AllocCall.deallocate p n],
    bad_free := h.bad_free || !(h.live.contains (p, n)) }

/-- The iterator begin()  (array_base.h lines 173-179). -/
def ArrayBase.begin_ (v : ArrayBase) : Nat := v.pointer_

/-- The iterator end()  (array_base.h lines 181-187): pointer_+size_. -/
def ArrayBase.end_ (v : ArrayBase) : Nat := v.pointer_ + v.size_

/-- The loop of std::copy over count elements: *d_first++ = *first++, front to
back. -/
def copy_loop {T : Type} (mem : Nat → T) (first d_first : Nat) : Nat → (Nat → T)
  | 0 => mem
  | n + 1 => copy_loop (Function.update mem d_first (mem first)) (first + 1) (d_first + 1) n

/-- The algorithm std::copy(first, last, d_first) on the memory mem. -/
def std_copy {T : Type} (mem : Nat → T) (first last d_first : Nat) : Nat → T :=
  copy_loop mem first d_first (last - first)

/-- Modelled from the spec: the device-transfer primitive cudaMemcpy(dst, src,
count, kind) of the CUDA runtime, a bulk copy of count elements that succeeds
(the source discards the returned status).  The byte count
size()*sizeof(value_type) of the source is count elements here. -/
def cudaMemcpy {T : Type} (mem : Nat → T) (dst src count : Nat) : Nat → T :=
  fun a => if dst ≤ a ∧ a < dst + count then mem (src + (a - dst)) else mem a

/-- Outcome of a coordinator copy: done with the memory and the view to after the
call (to is passed by non-const reference), or an assertion failure with the
memory at the moment of the abort. -/
inductive CopyResult (T : Type) where
  | done (mem : Nat → T) (to_ : ArrayView)
  | assert_fail (mem : Nat → T)

/-- The copy ended on a failed assertion. -/
def CopyResult.failed {T : Type} : CopyResult T → Bool
  | .done _ _ => false
  | .assert_fail _ => true

/-- The memory at the end of the copy (at the abort, when it failed). -/
def CopyResult.memory {T : Type} : CopyResult T → (Nat → T)
  | .done m _ => m
  | .assert_fail m => m

namespace device_coordinator

/-- The member allocate(n)  (device_coordinator.h lines 27-34):
pointer ptr = n>0 ? allocator.allocate(n) : 0; return range_type(ptr, n).
The result is none when the allocator raises. -/
def allocate (A : Allocator) (h : Heap) (n : Nat) : Option (ArrayView × Heap) :=
  if 0 < n then
    match Heap.allocate A h n with
    | none => none
    | some (ptr, h1) => some (⟨ptr, n⟩, h1)
  else some (⟨0, n⟩, h)

/-- The member free(rng)  (device_coordinator.h lines 36-43):
if(rng.data()) allocator.deallocate(rng.data(), rng.size()); rng.reset().
The result is rng and the heap after the call. -/
def free (h : Heap) (rng : ArrayView) : ArrayView × Heap :=
  let h1 := if rng.data ≠ 0 then Heap.deallocate h rng.data rng.size else h
  (rng.reset, h1)

/-- The member copy(from, to)  (device_coordinator.h lines 46-52): two assertions,
then std::copy(from.begin(), from.end(), to.begin()). -/
def copy {T : Type} (checked : Bool) (from_ to_ : ArrayView) (mem : Nat → T) : CopyResult T :=
  if checked && !(from_.size == to_.size) then CopyResult.assert_fail mem
  else if checked && !(!(from_.overlaps to_)) then CopyResult.assert_fail mem
  else CopyResult.done (std_copy mem from_.begin_ from_.end_ to_.begin_) to_

end device_coordinator

namespace DeviceCoordinator

/-- The member allocate(n)  (DeviceCoordinator.h lines 108-122), the same two
statements as device_coordinator::allocate; the VERBOSE trace line is left out. -/
def allocate (A : Allocator) (h : Heap) (n : Nat) : Option (ArrayView × Heap) :=
  if 0 < n then
    match Heap.allocate A h n with
    | none => none
    | some (ptr, h1) => some (⟨ptr, n⟩, h1)
  else some (⟨0, n⟩, h)

/-- The member copy(from, to) between two device views
(DeviceCoordinator.h lines 139-149): two assertions, then cudaMemcpy from
from.begin() to to.begin() of from.size() elements; the status is discarded. -/
def copy {T : Type} (checked : Bool) (from_ to_ : ArrayView) (mem : Nat → T) : CopyResult T :=
  if checked && !(from_.size == to_.size) then CopyResult.assert_fail mem
  else if checked && !(!(from_.overlaps to_)) then CopyResult.assert_fail mem
  else CopyResult.done (cudaMemcpy mem to_.begin_ from_.begin_ from_.size) to_

/-- The declaration static_assert(cond, msg): a false condition rejects the
program at compile time (none), a true one lets it through. -/
def static_assert (cond : Bool) : Option Unit := if cond then some () else none

/-- The member template copy<CoordOther>(from, to)
(DeviceCoordinator.h lines 151-156), the overload taken for a source view bound
to any coordinator other than the device coordinator itself or a
HostCoordinator: its body is static_assert(true, ...) and nothing else.
The result is none when the call is rejected at compile time, otherwise the
memory and the view to after the call. -/
def copy_other {T : Type} (_from : ArrayView) (to_ : ArrayView) (mem : Nat → T) :
    Option ((Nat → T) × ArrayView) := do
  static_assert true
  pure (mem, to_)

end DeviceCoordinator

/-! ### Arrays as owners: the program state and the Array operations -/

/-- The program state the Array operations act on: the element memory, the
allocator state, and the view state (pointer, size) of every live Array object,
by object identity (none: no live object of that identity). -/
structure World (T : Type) where
  mem : Nat → T
  heap : Heap
  arrays : Nat → Option ArrayView

/-- The state before any Array exists. -/
def World.init {T : Type} (mem : Nat → T) : World T := ⟨mem, Heap.init, fun _ => none⟩

/-- Modelled from the spec: the two-argument member ArrayView::reset(ptr, n) of
ArrayView.h, which is not among the sources; it sets pointer and length as
ArrayBase::set does (array_base.h lines 151-154). -/
def ArrayView.reset2 (self : ArrayView) (ptr n : Nat) : ArrayView := ArrayBase.set self ptr n

/-- The default constructor Array() : base(nullptr, 0)  (Array.h line 85), building
the object of identity i. -/
def Array.ctor_default {T : Type} (w : World T) (i : Nat) : Option (World T) :=
  match w.arrays i with
  | some _ => none
  | none => some { w with arrays := Function.update w.arrays i (some ⟨0, 0⟩) }

/-- The constructor Array(I n) : base(coordinator_type().allocate(n))
(Array.h lines 88-97). -/
def Array.ctor_n {T : Type} (A : Allocator) (w : World T) (i n : Nat) : Option (World T) :=
  match w.arrays i with
  | some _ => none
  | none =>
    match device_coordinator.allocate A w.heap n with
    | none => none
    | some (self, h1) =>
      some { w with heap := h1, arrays := Function.update w.arrays i (some self) }

/-- The constructor Array(const view_type& other)  (Array.h lines 112-119):
base(coordinator_type().allocate(other.size())), then
coordinator_.copy(other, *this). -/
def Array.ctor_view {T : Type} (A : Allocator) (checked : Bool) (w : World T) (i : Nat)
    (other : ArrayView) : Option (World T) :=
  match w.arrays i with
  | some _ => none
  | none =>
    match device_coordinator.allocate A w.heap other.size with
    | none => none
    | some (self, h1) =>
      match device_coordinator.copy checked other self w.mem with
      | .assert_fail _ => none
      | .done m self1 => some ⟨m, h1, Function.update w.arrays i (some self1)⟩

/-- The copy constructor Array(const Array& other)  (Array.h lines 121-128), the
same two statements as the constructor from a view; other is the live Array of
identity j. -/
def Array.ctor_copy {T : Type} (A : Allocator) (checked : Bool) (w : World T) (i j : Nat) :
    Option (World T) :=
  match w.arrays j with
  | none => none
  | some other => Array.ctor_view A checked w i other

/-- The copy assignment operator=(const Array& other)  (Array.h lines 130-139), for
the Arrays of identity i (this) and j (other, possibly the same object):
coordinator_.free(*this); ptr = allocate(other.size());
base::reset(ptr.data(), other.size()); coordinator_.copy(other, *this).
The state of other is read again after each write to this, as a reference is. -/
def Array.copy_assign {T : Type} (A : Allocator) (checked : Bool) (w : World T) (i j : Nat) :
    Option (World T) :=
  match w.arrays i with
  | none => none
  | some self =>
    let r := device_coordinator.free w.heap self
    let arrays1 := Function.update w.arrays i (some r.1)
    match arrays1 j with
    | none => none
    | some other =>
      match device_coordinator.allocate A r.2 other.size with
      | none => none
      | some (ptr, h2) =>
        let self2 := ArrayView.reset2 r.1 ptr.data other.size
        let arrays2 := Function.update arrays1 i (some self2)
        match arrays2 j with
        | none => none
        | some other2 =>
          match device_coordinator.copy checked other2 self2 w.mem with
          | .assert_fail _ => none
          | .done m self3 => some ⟨m, h2, Function.update arrays2 i (some self3)⟩

/-- The move constructor Array(Array&& other) on the program state: the new object
i is built from the live Array j by Array.move_ctor. -/
def Array.move_ctor_at {T : Type} (w : World T) (i j : Nat) : Option (World T) :=
  match w.arrays i, w.arrays j with
  | none, some other =>
    let r := Array.move_ctor other
    some { w with
      arrays := Function.update (Function.update w.arrays j (some r.2)) i (some r.1) }
  | _, _ => none

/-- The move assignment operator=(Array&& other) on the program state: the live
Arrays i (this) and j (other) go through Array.move_assign. -/
def Array.move_assign_at {T : Type} (w : World T) (i j : Nat) : Option (World T) :=
  match w.arrays i, w.arrays j with
  | some self, some other =>
    let r := Array.move_assign self other
    some { w with
      arrays := Function.update (Function.update w.arrays j (some r.2)) i (some r.1) }
  | _, _ => none

/-- The destructor ~Array()  (Array.h lines 157-163): coordinator_.free(*this); the
object i is no longer live afterwards. -/
def Array.dtor {T : Type} (w : World T) (i : Nat) : Option (World T) :=
  match w.arrays i with
  | none => none
  | some self =>
    let r := device_coordinator.free w.heap self
    some { w with heap := r.2, arrays := Function.update w.arrays i none }

/-- The Array operations a program can perform, with the identities of the objects
involved. -/
inductive Op where
  | default_construct (i : Nat)
  | construct_n (i n : Nat)
  | construct_view (i : Nat) (other : ArrayView)
  | copy_construct (i j : Nat)
  | copy_assign (i j : Nat)
  | move_construct (i j : Nat)
  | move_assign (i j : Nat)
  | destruct (i : Nat)

/-- One Array operation on the program state; none when the program does not go
on (failed assertion, raised allocation error, or an operation on an object
that is not live, respectively a construction of one that is). -/
def step {T : Type} (A : Allocator) (checked : Bool) (w : World T) : Op → Option (World T)
  | .default_construct i => Array.ctor_default w i
  | .construct_n i n => Array.ctor_n A w i n
  | .construct_view i other => Array.ctor_view A checked w i other
  | .copy_construct i j => Array.ctor_copy A checked w i j
  | .copy_assign i j => Array.copy_assign A checked w i j
  | .move_construct i j => Array.move_ctor_at w i j
  | .move_assign i j => Array.move_assign_at w i j
  | .destruct i => Array.dtor w i

/-- A sequence of Array operations, run from the state w. -/
def run {T : Type} (A : Allocator) (checked : Bool) (w : World T) : List Op → Option (World T)
  | [] => some w
  | op :: ops =>
    match step A checked w op with
    | none => none
    | some w1 => run A checked w1 ops

/-- The allocator hands out fresh disjoint blocks: every request for n > 0
elements is answered by a non-null pointer whose block [p, p+n) is disjoint from
every block currently allocated. -/
def Allocator.fresh (A : Allocator) : Prop :=
  ∀ h n, 0 < n → ∃ p, A h n = AllocResult.block p ∧ p ≠ 0 ∧
    ∀ b ∈ h.live, p + n ≤ b.1 ∨ b.1 + b.2 ≤ p

/-- A bump allocator: the next block starts one past the highest end of the live
blocks. -/
def bump_allocator : Allocator :=
  fun h _ => AllocResult.block (1 + (h.live.map (fun b => b.1 + b.2)).foldr max 0)

/-- An allocator that reports every failure by returning the null pointer. -/
def null_allocator : Allocator := fun _ _ => AllocResult.block 0

/-- An allocator that reports every failure by raising. -/
def raising_allocator : Allocator := fun _ _ => AllocResult.raise

/-- The ownership invariant on the allocator state and the live Arrays. -/
structure Ownership (h : Heap) (arrays : Nat → Option ArrayView) : Prop where
  owns : ∀ i v, arrays i = some v →
    v = ⟨0, 0⟩ ∨ (v.pointer_ ≠ 0 ∧ 0 < v.size_ ∧ (v.pointer_, v.size_) ∈ h.live)
  disjoint : ∀ i j v u, i ≠ j → arrays i = some v → arrays j = some u → v.overlaps u = false
  no_bad_free : h.bad_free = false
  held : ∀ b ∈ h.live, ∃ i, arrays i = some ⟨b.1, b.2⟩
  nodup : h.live.Nodup
  proper : ∀ b ∈ h.live, b.1 ≠ 0 ∧ 0 < b.2
  counts : h.calls.countP AllocCall.is_deallocate + h.live.length =
    h.calls.countP AllocCall.is_allocate

/-- A sample program: Arrays 0 to 4 are built by every kind of construction,
assigned and moved, and all destroyed in the end.  The view (1, 2) covers the
first two elements of the Array 0 as the bump allocator places it. -/
def sample_program : List Op :=
  [Op.construct_n 0 3, Op.construct_view 1 ⟨1, 2⟩, Op.copy_construct 2 0, Op.copy_assign 1 2,
   Op.copy_assign 2 2, Op.move_construct 3 1, Op.move_assign 0 3, Op.default_construct 4,
   Op.destruct 0, Op.destruct 1, Op.destruct 2, Op.destruct 3, Op.destruct 4]

/-! ### Host to device copy, Range slicing, the second free, Storage -/

/-- Modelled from the spec: the token SynchEvent of Event.h, which is not among
the sources.  The spec says: "A synchronous token is always already complete".
It carries no state. -/
structure SynchEvent where
deriving DecidableEq

/-- Modelled from the spec: the completion state of a synchronous token, always
already complete. -/
def SynchEvent.is_complete (_e : SynchEvent) : Bool := true

/-- Modelled from the spec: the device-transfer primitive cudaMemcpy(dst, src,
count, cudaMemcpyHostToDevice) of the CUDA runtime, a bulk copy of count
elements from the host memory into the device memory that succeeds (the source
discards the returned status).  The result is the device memory afterwards. -/
def cudaMemcpyHostToDevice {T : Type} (host dev : Nat → T) (dst src count : Nat) : Nat → T :=
  fun a => if dst ≤ a ∧ a < dst + count then host (src + (a - dst)) else dev a

/-- Outcome of the host-to-device copy: done with the host memory, the device
memory, the returned pair (event, view) and the view to after the call, or an
assertion failure with both memories at the moment of the abort. -/
inductive HostCopyResult (T : Type) where
  | done (host dev : Nat → T) (event : SynchEvent) (ret : ArrayView) (to_ : ArrayView)
  | assert_fail (host dev : Nat → T)

/-- The host-to-device copy ended on a failed assertion. -/
def HostCopyResult.failed {T : Type} : HostCopyResult T → Bool
  | .done _ _ _ _ _ => false
  | .assert_fail _ _ => true

/-- The device memory at the end of the host-to-device copy (at the abort, when it
failed). -/
def HostCopyResult.device {T : Type} : HostCopyResult T → (Nat → T)
  | .done _ dev _ _ _ => dev
  | .assert_fail _ dev => dev

/-- The member template copy(from, to) of DeviceCoordinator for a host source view
(DeviceCoordinator.h lines 158-181), the synchronous host-to-device copy:
assert(from.size()==to.size()), cudaMemcpy of from.size() elements from
from.begin() to to.begin() with kind cudaMemcpyHostToDevice, then
return std::make_pair(SynchEvent(), to). -/
def DeviceCoordinator.copy_from_host {T : Type} (checked : Bool) (from_ to_ : ArrayView)
    (host dev : Nat → T) : HostCopyResult T :=
  if checked && !(from_.size == to_.size) then HostCopyResult.assert_fail host dev
  else
    HostCopyResult.done host
      (cudaMemcpyHostToDevice host dev to_.begin_ from_.begin_ from_.size)
      SynchEvent.mk to_ to_

/-- The member free(rng) of DeviceCoordinator  (DeviceCoordinator.h lines 124-136):
if(rng.data()) allocator.deallocate(rng.data(), rng.size()); rng.reset(); the
VERBOSE trace line is left out.  The result is rng and the heap after the call. -/
def DeviceCoordinator.free (h : Heap) (rng : ArrayView) : ArrayView × Heap :=
  let h1 := if rng.data ≠ 0 then Heap.deallocate h rng.data rng.size else h
  (rng.reset, h1)

/-- The class Range of range.h, which is not among the sources, taken as the two
size_type values that array_base.h reads from it: rng.begin() and rng.end(). -/
structure Range where
  begin_ : Nat
  end_ : Nat
deriving DecidableEq

/-- The call operator()(Range const& rng)  (array_base.h lines 110-119):
left = rng.begin(); right = rng.end(); assert(left<=size_ && right<=size_);
then ArrayBase(pointer_+left, right-left). -/
def ArrayBase.operator_call_range (checked : Bool) (v : ArrayBase) (rng : Range) :
    Option ArrayBase := do
  let left := rng.begin_
  let right := rng.end_
  cassert checked (decide (left ≤ v.size_) && decide (right ≤ v.size_))
  pure ⟨v.pointer_ + left, size_sub right left⟩

/-- Modelled from the spec: the container Storage<T,N,M> of storage.h, which is
not among the sources (only its test is): "a fixed-size, compile-time-sized
(N records x M lanes) buffer of T", "logically N*M values of type T, physically
grouped so that all M lanes of one record are contiguous".  The buffer is given
by its physical elements; the flat indices below N*M are the ones that belong
to it. -/
structure Storage (T : Type) (N M : Nat) where
  data : Nat → T

namespace Storage

/-- Modelled from the spec: "number_of_values == N*M". -/
def number_of_values {T : Type} {N M : Nat} (_s : Storage T N M) : Nat := N * M

/-- Modelled from the spec: operator[flat_index], "the flat_index-th physical
element". -/
def at_flat {T : Type} {N M : Nat} (s : Storage T N M) (flat_index : Nat) : T :=
  s.data flat_index

/-- Modelled from the spec: operator(record, lane), "indexing (record, lane)
always resolves to record*M + lane". -/
def at_lane {T : Type} {N M : Nat} (s : Storage T N M) (record lane : Nat) : T :=
  s.data (record * M + lane)

/-- Modelled from the spec: slice(lane), "returns a new Storage<T,N,1>
(array-of-structures layout) containing, for every record, the value at that
lane; this is a gather across the interleaved layout".  The receiver is a
value and is not changed. -/
def slice {T : Type} {N M : Nat} (s : Storage T N M) (lane : Nat) : Storage T N 1 :=
  ⟨fun record => s.at_lane record lane⟩

end Storage

/-! ## Theorems -/

/-- Helper: what overlaps computes, as two strict comparisons. -/
theorem overlaps_iff_lt (a b : ArrayBase) :
    a.overlaps b = true ↔
      a.pointer_ < b.pointer_ + b.size_ ∧ b.pointer_ < a.pointer_ + a.size_ := by
  simp [ArrayBase.overlaps, ArrayBase.data, ArrayBase.size]

/-- Helper: size_sub is ordinary subtraction when nothing wraps. -/
theorem size_sub_eq (a b : Nat) (hba : b ≤ a) (ha : a < SIZE_MOD) : size_sub a b = a - b := by
  unfold size_sub
  have h : a + SIZE_MOD - b = (a - b) + SIZE_MOD := by omega
  rw [h, Nat.add_mod_right]
  exact Nat.mod_eq_of_lt (by omega)

/-- Helper: an in-bounds call v(left, right) is accepted in either build. -/
theorem operator_call_in_bounds (checked : Bool) (v : ArrayBase) (left right : Nat)
    (hlr : left ≤ right) (hrL : right ≤ v.size_) (hL : v.size_ < SIZE_MOD) :
    v.operator_call checked left right = some ⟨v.pointer_ + left, right - left⟩ := by
  have hs : size_sub right left = right - left := size_sub_eq right left hlr (by omega)
  cases checked <;> simp [ArrayBase.operator_call, cassert, hlr, hrL, hs]

/-- Helper: an in-bounds call v(left, end) is accepted in either build. -/
theorem operator_call_end_in_bounds (checked : Bool) (v : ArrayBase) (left : Nat)
    (h : left ≤ v.size_) (hL : v.size_ < SIZE_MOD) :
    v.operator_call_end checked left = some ⟨v.pointer_ + left, v.size_ - left⟩ := by
  have hs : size_sub v.size_ left = v.size_ - left := size_sub_eq v.size_ left h hL
  cases checked <;> simp [ArrayBase.operator_call_end, cassert, h, hs]

/-- C1 (as stated, refuted): the zero-length slice v(5, 5) of the view
v = (1000, 10) is the view (1005, 0); it shares no address with v, yet
overlaps answers true. -/
theorem C1_overlaps_empty_inside_counterexample :
    (ArrayBase.mk 1000 10).operator_call true 5 5 = some ⟨1005, 0⟩ ∧
      ArrayBase.overlaps ⟨1005, 0⟩ ⟨1000, 10⟩ = true ∧
      ¬ ∃ x, ArrayBase.in_range ⟨1005, 0⟩ x ∧ ArrayBase.in_range ⟨1000, 10⟩ x := by
  refine ⟨by decide, by decide, ?_⟩
  rintro ⟨x, ⟨h1, h2⟩, -⟩
  simp only [ArrayBase.data, ArrayBase.size] at h1 h2
  omega

/-- C1 (amended): a.overlaps(b) is true exactly when the half-open ranges
[a.data(), a.data()+a.size()) and [b.data(), b.data()+b.size()) share an
address, or one of the two views has length zero and its pointer lies strictly
between the data() and data()+size() of the other. -/
theorem C1_overlaps_iff (a b : ArrayBase) :
    a.overlaps b = true ↔
      (∃ x, a.in_range x ∧ b.in_range x) ∨
      (a.size = 0 ∧ b.data < a.data ∧ a.data < b.data + b.size) ∨
      (b.size = 0 ∧ a.data < b.data ∧ b.data < a.data + a.size) := by
  rw [overlaps_iff_lt]
  simp only [ArrayBase.in_range, ArrayBase.data, ArrayBase.size]
  constructor
  · rintro ⟨h1, h2⟩
    by_cases ha : a.size_ = 0
    · right; left; omega
    · by_cases hb : b.size_ = 0
      · right; right; omega
      · left
        refine ⟨max a.pointer_ b.pointer_, ?_⟩
        omega
  · rintro (⟨x, ⟨h1, h2⟩, h3, h4⟩ | ⟨h1, h2, h3⟩ | ⟨h1, h2, h3⟩) <;> omega

/-- C2: for 0 <= left <= right <= L the call v(left, right) returns, in a
checked build as in an unchecked one, the view with pointer p+left and length
right-left. -/
theorem C2_operator_call_spec (checked : Bool) (v : ArrayBase) (left right : Nat)
    (hlr : left ≤ right) (hrL : right ≤ v.size_) (hL : v.size_ < SIZE_MOD) :
    v.operator_call checked left right = some ⟨v.pointer_ + left, right - left⟩ := by
  have hs : size_sub right left = right - left := size_sub_eq right left hlr (by omega)
  cases checked <;> simp [ArrayBase.operator_call, cassert, hlr, hrL, hs]

/-- C2 witness: the view (1000, 20) sliced at (2, 5). -/
theorem C2_operator_call_spec_witness :
    (2 ≤ 5 ∧ 5 ≤ (ArrayBase.mk 1000 20).size_ ∧ (ArrayBase.mk 1000 20).size_ < SIZE_MOD) ∧
      (ArrayBase.mk 1000 20).operator_call true 2 5 = some ⟨1002, 3⟩ :=
  ⟨⟨by decide, by decide, by decide⟩,
    C2_operator_call_spec true ⟨1000, 20⟩ 2 5 (by decide) (by decide) (by decide)⟩

/-- C3: in a checked build v(left, right) fails (aborts on an assertion) exactly
when left > right or right > L; so a call violating the ordering or the bound
never returns a view. -/
theorem C3_operator_call_fails_iff (v : ArrayBase) (left right : Nat) :
    v.operator_call true left right = none ↔ (right < left ∨ v.size_ < right) := by
  by_cases h1 : left ≤ right <;> by_cases h2 : right ≤ v.size_ <;>
    simp [ArrayBase.operator_call, cassert, h1, h2] <;> omega

/-- C4: for a view v of length L (a size_type value, so below SIZE_MOD) both
v(0, L) and v(all) are accepted and compare equal to v under operator==; each
has the pointer and the length of v. -/
theorem C4_whole_slices_equal (checked : Bool) (v : ArrayBase) (hL : v.size_ < SIZE_MOD) :
    (∃ s, v.operator_call checked 0 v.size_ = some s ∧ s.operator_eq v = true ∧
        s.data = v.data ∧ s.size = v.size) ∧
      (v.operator_call_all.operator_eq v = true ∧
        v.operator_call_all.data = v.data ∧ v.operator_call_all.size = v.size) := by
  have hs : size_sub v.size_ 0 = v.size_ := by
    rw [size_sub_eq v.size_ 0 (Nat.zero_le _) hL]; rfl
  refine ⟨⟨⟨v.pointer_, v.size_⟩, ?_, ?_, rfl, rfl⟩, ?_, rfl, rfl⟩
  · cases checked <;> simp [ArrayBase.operator_call, cassert, hs]
  · simp [ArrayBase.operator_eq]
  · simp [ArrayBase.operator_eq, ArrayBase.operator_call_all]

/-- C4 witness: the view (1000, 20). -/
theorem C4_whole_slices_equal_witness :
    (ArrayBase.mk 1000 20).size_ < SIZE_MOD ∧
      ((∃ s, (ArrayBase.mk 1000 20).operator_call true 0 (ArrayBase.mk 1000 20).size_ = some s ∧
          s.operator_eq ⟨1000, 20⟩ = true ∧
          s.data = (ArrayBase.mk 1000 20).data ∧ s.size = (ArrayBase.mk 1000 20).size) ∧
        ((ArrayBase.mk 1000 20).operator_call_all.operator_eq ⟨1000, 20⟩ = true ∧
          (ArrayBase.mk 1000 20).operator_call_all.data = (ArrayBase.mk 1000 20).data ∧
          (ArrayBase.mk 1000 20).operator_call_all.size = (ArrayBase.mk 1000 20).size)) :=
  ⟨by decide, C4_whole_slices_equal true ⟨1000, 20⟩ (by decide)⟩

/-- C5: v(left, end) gives the same outcome as v(left, L) in either build; in a
checked build it is rejected exactly when left > L, and for left <= L it
returns the view with pointer p+left and length L-left. -/
theorem C5_call_end_eq_call_size (checked : Bool) (v : ArrayBase) (left : Nat) :
    v.operator_call_end checked left = v.operator_call checked left v.size_ ∧
      (v.operator_call_end true left = none ↔ v.size_ < left) ∧
      (left ≤ v.size_ → v.size_ < SIZE_MOD →
        v.operator_call_end checked left = some ⟨v.pointer_ + left, v.size_ - left⟩) := by
  refine ⟨?_, ?_, ?_⟩
  · cases checked <;> by_cases h : left ≤ v.size_ <;>
      simp [ArrayBase.operator_call_end, ArrayBase.operator_call, cassert, h]
  · by_cases h : left ≤ v.size_
    · simp [ArrayBase.operator_call_end, cassert, h]
    · simp [ArrayBase.operator_call_end, cassert, h]
      omega
  · intro h hL
    have hs : size_sub v.size_ left = v.size_ - left := size_sub_eq v.size_ left h hL
    cases checked <;> simp [ArrayBase.operator_call_end, cassert, h, hs]

/-- C5 witness: the view (1000, 20) sliced from 3 to the end. -/
theorem C5_call_end_eq_call_size_witness :
    (3 ≤ (ArrayBase.mk 1000 20).size_ ∧ (ArrayBase.mk 1000 20).size_ < SIZE_MOD) ∧
      (ArrayBase.mk 1000 20).operator_call_end true 3 = some ⟨1003, 17⟩ :=
  ⟨⟨by decide, by decide⟩,
    (C5_call_end_eq_call_size true ⟨1000, 20⟩ 3).2.2 (by decide) (by decide)⟩

/-- C6: overlaps is symmetric, a.overlaps(b) == b.overlaps(a) for all views,
zero-length ones included. -/
theorem C6_overlaps_symm (a b : ArrayBase) : a.overlaps b = b.overlaps a := by
  simp [ArrayBase.overlaps, Bool.or_comm]

/-- C7: a non-empty view overlaps itself, and the same holds between v and
v(all) in either order (and for v(all) with itself). -/
theorem C7_overlaps_self (v : ArrayBase) (h : 0 < v.size) :
    v.overlaps v = true ∧ v.operator_call_all.overlaps v = true ∧
      v.overlaps v.operator_call_all = true ∧
      v.operator_call_all.overlaps v.operator_call_all = true := by
  have hv : v.overlaps v = true := by
    rw [overlaps_iff_lt]
    simp only [ArrayBase.size] at h
    omega
  exact ⟨hv, hv, hv, hv⟩

/-- C7 witness: the view (1000, 20) of the overlap test. -/
theorem C7_overlaps_self_witness :
    0 < (ArrayBase.mk 1000 20).size ∧
      ((ArrayBase.mk 1000 20).overlaps ⟨1000, 20⟩ = true ∧
        (ArrayBase.mk 1000 20).operator_call_all.overlaps ⟨1000, 20⟩ = true ∧
        (ArrayBase.mk 1000 20).overlaps (ArrayBase.mk 1000 20).operator_call_all = true ∧
        (ArrayBase.mk 1000 20).operator_call_all.overlaps
          (ArrayBase.mk 1000 20).operator_call_all = true) :=
  ⟨by decide, C7_overlaps_self ⟨1000, 20⟩ (by decide)⟩

/-- C8: for a view v of length L (below SIZE_MOD) and 0 <= k <= L the slices
v(0, k) and v(k, end) are accepted and do not overlap in either order; for
0 <= k < L the slices v(0, k+1) and v(k, end) are accepted and overlap in
either order. -/
theorem C8_overlap_at_boundary (checked : Bool) (v : ArrayBase) (k : Nat)
    (hL : v.size_ < SIZE_MOD) :
    (k ≤ v.size_ → ∃ s t, v.operator_call checked 0 k = some s ∧
        v.operator_call_end checked k = some t ∧
        s.overlaps t = false ∧ t.overlaps s = false) ∧
      (k < v.size_ → ∃ s t, v.operator_call checked 0 (k + 1) = some s ∧
        v.operator_call_end checked k = some t ∧
        s.overlaps t = true ∧ t.overlaps s = true) := by
  constructor
  · intro hk
    refine ⟨⟨v.pointer_ + 0, k - 0⟩, ⟨v.pointer_ + k, v.size_ - k⟩,
      operator_call_in_bounds checked v 0 k (Nat.zero_le _) hk hL,
      (operator_call_end_in_bounds checked v k hk hL), ?_, ?_⟩
    · rw [← Bool.not_eq_true, overlaps_iff_lt]; simp
    · rw [← Bool.not_eq_true, overlaps_iff_lt]; simp
  · intro hk
    refine ⟨⟨v.pointer_ + 0, k + 1 - 0⟩, ⟨v.pointer_ + k, v.size_ - k⟩,
      operator_call_in_bounds checked v 0 (k + 1) (Nat.zero_le _) hk hL,
      (operator_call_end_in_bounds checked v k (Nat.le_of_lt hk) hL), ?_, ?_⟩
    · rw [overlaps_iff_lt]; simp only; omega
    · rw [overlaps_iff_lt]; simp only; omega

/-- C8 witness: L = 20 and k = 10, the slices of the overlap test. -/
theorem C8_overlap_at_boundary_witness :
    ((ArrayBase.mk 1000 20).size_ < SIZE_MOD ∧ 10 ≤ (ArrayBase.mk 1000 20).size_ ∧
        10 < (ArrayBase.mk 1000 20).size_) ∧
      (∃ s t, (ArrayBase.mk 1000 20).operator_call true 0 10 = some s ∧
        (ArrayBase.mk 1000 20).operator_call_end true 10 = some t ∧
        s.overlaps t = false ∧ t.overlaps s = false) ∧
      (∃ s t, (ArrayBase.mk 1000 20).operator_call true 0 (10 + 1) = some s ∧
        (ArrayBase.mk 1000 20).operator_call_end true 10 = some t ∧
        s.overlaps t = true ∧ t.overlaps s = true) :=
  ⟨⟨by decide, by decide, by decide⟩,
    (C8_overlap_at_boundary true ⟨1000, 20⟩ 10 (by decide)).1 (by decide),
    (C8_overlap_at_boundary true ⟨1000, 20⟩ 10 (by decide)).2 (by decide)⟩

/-- C9: a == b is true exactly when a.data() == b.data() and
a.size() == b.size(); whatever the memory holds, two views at different
addresses are unequal even when their elements are pairwise equal. -/
theorem C9_operator_eq_structural (a b : ArrayBase) :
    (a.operator_eq b = true ↔ a.data = b.data ∧ a.size = b.size) ∧
      (∀ (α : Type) (mem : Nat → α),
        (∀ i, i < a.size → mem (a.data + i) = mem (b.data + i)) →
        a.data ≠ b.data → a.operator_eq b = false) := by
  have h : a.operator_eq b = true ↔ a.data = b.data ∧ a.size = b.size := by
    simp only [ArrayBase.operator_eq, ArrayBase.data, ArrayBase.size, Bool.and_eq_true,
      beq_iff_eq]
    constructor
    · rintro ⟨h1, h2⟩; exact ⟨h2.symm, h1.symm⟩
    · rintro ⟨h1, h2⟩; exact ⟨h2.symm, h1.symm⟩
  refine ⟨h, ?_⟩
  intro α mem _ hne
  rw [← Bool.not_eq_true, h]
  exact fun hh => hne hh.1

/-- C9 witness: two views of two elements at addresses 0 and 10 over a memory
holding 7 everywhere are unequal. -/
theorem C9_operator_eq_structural_witness :
    (∀ i, i < (ArrayBase.mk 0 2).size →
        (fun _ : Nat => (7 : Nat)) ((ArrayBase.mk 0 2).data + i) =
          (fun _ : Nat => (7 : Nat)) ((ArrayBase.mk 10 2).data + i)) ∧
      (ArrayBase.mk 0 2).data ≠ (ArrayBase.mk 10 2).data ∧
      (ArrayBase.mk 0 2).operator_eq ⟨10, 2⟩ = false :=
  ⟨fun _ _ => rfl, by decide,
    (C9_operator_eq_structural ⟨0, 2⟩ ⟨10, 2⟩).2 Nat (fun _ => 7) (fun _ _ => rfl) (by decide)⟩

/-- C10 (as stated, refuted): move-assigning src = (200, 3) into dst = (100, 5)
leaves src holding (100, 5), so src is not in the empty state. -/
theorem C10_move_assign_counterexample :
    (Array.move_assign ⟨100, 5⟩ ⟨200, 3⟩).2 = ⟨100, 5⟩ ∧
      ¬ ((Array.move_assign ⟨100, 5⟩ ⟨200, 3⟩).2.size = 0 ∧
          (Array.move_assign ⟨100, 5⟩ ⟨200, 3⟩).2.data = 0) := by
  decide

/-- C10 (amended): move-construction of dst from src leaves src in the empty
state (size 0, null pointer) and dst holding the pointer and size src held
before; move-assignment dst = std::move(src) leaves dst holding the pointer and
size src held before and leaves src holding the pointer and size dst held
before, so that src is empty afterwards exactly when dst was empty before. -/
theorem C10_move_semantics (dst src : ArrayView) :
    ((Array.move_ctor src).1.data = src.data ∧ (Array.move_ctor src).1.size = src.size ∧
        (Array.move_ctor src).2.data = 0 ∧ (Array.move_ctor src).2.size = 0) ∧
      ((Array.move_assign dst src).1.data = src.data ∧
        (Array.move_assign dst src).1.size = src.size ∧
        (Array.move_assign dst src).2.data = dst.data ∧
        (Array.move_assign dst src).2.size = dst.size) :=
  ⟨⟨rfl, rfl, rfl, rfl⟩, ⟨rfl, rfl, rfl, rfl⟩⟩

/-! ### Coordinators: allocate, free, copy -/

/-- Helper: what device_coordinator::allocate does with the answer of the allocator. -/
theorem device_allocate_block (A : Allocator) (h : Heap) (n p : Nat) (hn : 0 < n)
    (hA : A h n = AllocResult.block p) :
    device_coordinator.allocate A h n =
      some (⟨p, n⟩, { live := if p = 0 then h.live else (p, n) :: h.live,
                      calls := h.calls ++ [AllocCall.allocate n p],
                      bad_free := h.bad_free }) := by
  simp [device_coordinator.allocate, Heap.allocate, hn, hA]

/-- Helper: a request for zero elements makes no allocator call. -/
theorem device_allocate_zero (A : Allocator) (h : Heap) :
    device_coordinator.allocate A h 0 = some (⟨0, 0⟩, h) := by
  simp [device_coordinator.allocate]

/-- Helper: the two allocate members are the same function. -/
theorem allocate_eq (A : Allocator) (h : Heap) (n : Nat) :
    DeviceCoordinator.allocate A h n = device_coordinator.allocate A h n := rfl

/-- Helper: the front-to-back copy loop on disjoint ranges is the bulk copy. -/
theorem copy_loop_spec {T : Type} (n : Nat) :
    ∀ (mem : Nat → T) (first d : Nat), (first + n ≤ d ∨ d + n ≤ first) →
      ∀ a, copy_loop mem first d n a =
        if d ≤ a ∧ a < d + n then mem (first + (a - d)) else mem a := by
  induction n with
  | zero =>
    intro mem first d _ a
    have h : ¬ (d ≤ a ∧ a < d + 0) := by omega
    simp only [copy_loop]
    rw [if_neg h]
  | succ n ih =>
    intro mem first d hd a
    rw [copy_loop, ih _ _ _ (by omega)]
    by_cases h1 : d + 1 ≤ a ∧ a < d + 1 + n
    · have h2 : d ≤ a ∧ a < d + (n + 1) := by omega
      have h3 : first + 1 + (a - (d + 1)) ≠ d := by omega
      rw [if_pos h1, if_pos h2, Function.update_noteq h3]
      exact congrArg mem (by omega)
    · rw [if_neg h1]
      by_cases h4 : a = d
      · subst h4
        have h2 : a ≤ a ∧ a < a + (n + 1) := by omega
        rw [if_pos h2, Function.update_same]
        exact congrArg mem (by omega)
      · have h2 : ¬ (d ≤ a ∧ a < d + (n + 1)) := by omega
        rw [if_neg h2, Function.update_noteq h4]

/-- Helper: std::copy over the range of a view that does not overlap the target. -/
theorem std_copy_view {T : Type} (from_ to_ : ArrayView) (mem : Nat → T)
    (hsz : from_.size = to_.size) (hov : from_.overlaps to_ = false) :
    std_copy mem from_.begin_ from_.end_ to_.begin_ =
      cudaMemcpy mem to_.begin_ from_.begin_ from_.size := by
  have hno : ¬ (from_.pointer_ < to_.pointer_ + to_.size_ ∧
      to_.pointer_ < from_.pointer_ + from_.size_) := by
    rw [← overlaps_iff_lt, hov]; simp
  simp only [ArrayBase.size] at hsz
  funext a
  simp only [std_copy, cudaMemcpy, ArrayBase.begin_, ArrayBase.end_, ArrayBase.size]
  have hlen : from_.pointer_ + from_.size_ - from_.pointer_ = from_.size_ := by omega
  rw [hlen]
  exact copy_loop_spec from_.size_ mem from_.pointer_ to_.pointer_ (by omega) a

/-- Helper: the bulk copy between ranges that do not overlap. -/
theorem cudaMemcpy_spec {T : Type} (from_ to_ : ArrayView) (mem : Nat → T)
    (hsz : from_.size = to_.size) (hov : from_.overlaps to_ = false) :
    (∀ i, i < from_.size →
        cudaMemcpy mem to_.begin_ from_.begin_ from_.size (to_.data + i) = mem (from_.data + i)) ∧
      (∀ i, i < from_.size →
        cudaMemcpy mem to_.begin_ from_.begin_ from_.size (from_.data + i) =
          mem (from_.data + i)) ∧
      (∀ a, ¬ to_.in_range a → cudaMemcpy mem to_.begin_ from_.begin_ from_.size a = mem a) := by
  have hno : ¬ (from_.pointer_ < to_.pointer_ + to_.size_ ∧
      to_.pointer_ < from_.pointer_ + from_.size_) := by
    rw [← overlaps_iff_lt, hov]; simp
  simp only [ArrayBase.size] at hsz
  simp only [cudaMemcpy, ArrayBase.begin_, ArrayBase.data, ArrayBase.size, ArrayBase.in_range]
  refine ⟨?_, ?_, ?_⟩
  · intro i hi
    have h : to_.pointer_ ≤ to_.pointer_ + i ∧ to_.pointer_ + i < to_.pointer_ + from_.size_ := by
      omega
    rw [if_pos h]
    exact congrArg mem (by omega)
  · intro i hi
    have h : ¬ (to_.pointer_ ≤ from_.pointer_ + i ∧
        from_.pointer_ + i < to_.pointer_ + from_.size_) := by omega
    rw [if_neg h]
  · intro a ha
    have h : ¬ (to_.pointer_ ≤ a ∧ a < to_.pointer_ + from_.size_) := by
      rw [hsz]; exact ha
    rw [if_neg h]

/-- Helper: with both preconditions met the two assertions of copy pass. -/
theorem device_copy_done {T : Type} (checked : Bool) (from_ to_ : ArrayView) (mem : Nat → T)
    (hsz : from_.size = to_.size) (hov : from_.overlaps to_ = false) :
    device_coordinator.copy checked from_ to_ mem =
      CopyResult.done (std_copy mem from_.begin_ from_.end_ to_.begin_) to_ := by
  simp [device_coordinator.copy, hsz, hov]

/-- Helper: Array(n) holds the view that allocate(n) returned. -/
theorem ctor_n_result {T : Type} (A : Allocator) (w : World T) (i n : Nat) (v : ArrayView)
    (h1 : Heap) (hi : w.arrays i = none)
    (ha : device_coordinator.allocate A w.heap n = some (v, h1)) :
    Array.ctor_n A w i n =
      some { w with heap := h1, arrays := Function.update w.arrays i (some v) } := by
  simp [Array.ctor_n, hi, ha]

/-- C13: allocate(0) makes no allocator call and returns the null view of size 0;
for n > 0, whenever the allocator returns a pointer p, allocate(n) makes the one
call allocate(n) and returns the view (p, n), so size() is n and data() is the
pointer the allocator returned (non-null when the allocation succeeded).
Array(n) holds exactly that view. -/
theorem C13_allocate_spec (A : Allocator) (h : Heap) (n : Nat) :
    (n = 0 → device_coordinator.allocate A h n = some (⟨0, 0⟩, h)) ∧
      (∀ p, 0 < n → A h n = AllocResult.block p →
        ∃ h1, device_coordinator.allocate A h n = some (⟨p, n⟩, h1) ∧
          (ArrayBase.mk p n).size = n ∧ (ArrayBase.mk p n).data = p ∧
          h1.calls = h.calls ++ [AllocCall.allocate n p]) ∧
      (∀ (T : Type) (w : World T) (i : Nat), w.heap = h → w.arrays i = none →
        (n = 0 → ∃ w1, Array.ctor_n A w i n = some w1 ∧
          w1.arrays i = some ⟨0, 0⟩ ∧ w1.heap = w.heap) ∧
        (∀ p, 0 < n → A h n = AllocResult.block p →
          ∃ w1, Array.ctor_n A w i n = some w1 ∧ w1.arrays i = some ⟨p, n⟩ ∧
            w1.heap.calls = h.calls ++ [AllocCall.allocate n p])) := by
  refine ⟨?_, ?_, ?_⟩
  · intro hn
    subst hn
    exact device_allocate_zero A h
  · intro p hn hA
    exact ⟨_, device_allocate_block A h n p hn hA, rfl, rfl, rfl⟩
  · intro T w i hw hi
    subst hw
    constructor
    · intro hn
      subst hn
      refine ⟨_, ctor_n_result A w i 0 _ _ hi (device_allocate_zero A w.heap), ?_, rfl⟩
      simp
    · intro p hn hA
      refine ⟨_, ctor_n_result A w i n _ _ hi (device_allocate_block A w.heap n p hn hA), ?_, rfl⟩
      simp

/-- C13 witness: the bump allocator on the initial heap answers a request for 5
elements with the pointer 1, and Array(5) holds the view (1, 5). -/
theorem C13_allocate_spec_witness :
    device_coordinator.allocate bump_allocator Heap.init 0 = some (⟨0, 0⟩, Heap.init) ∧
      (∃ h1, device_coordinator.allocate bump_allocator Heap.init 5 = some (⟨1, 5⟩, h1) ∧
        (ArrayBase.mk 1 5).size = 5 ∧ (ArrayBase.mk 1 5).data = 1 ∧
        h1.calls = Heap.init.calls ++ [AllocCall.allocate 5 1]) ∧
      (∃ w1, Array.ctor_n bump_allocator (World.init (fun _ => (0 : Nat))) 7 5 = some w1 ∧
        w1.arrays 7 = some ⟨1, 5⟩ ∧
        w1.heap.calls = Heap.init.calls ++ [AllocCall.allocate 5 1]) :=
  ⟨(C13_allocate_spec bump_allocator Heap.init 0).1 rfl,
    (C13_allocate_spec bump_allocator Heap.init 5).2.1 1 (by decide) rfl,
    ((C13_allocate_spec bump_allocator Heap.init 5).2.2 Nat (World.init (fun _ => 0)) 7
      rfl rfl).2 1 (by decide) rfl⟩

/-- C14 (as stated, refuted): when the allocator answers a request for 5 elements
with the null pointer, both allocate members return the view (null, 5). -/
theorem C14_null_block_counterexample :
    device_coordinator.allocate null_allocator Heap.init 5 =
        some (⟨0, 5⟩, ⟨[], [AllocCall.allocate 5 0], false⟩) ∧
      DeviceCoordinator.allocate null_allocator Heap.init 5 =
        some (⟨0, 5⟩, ⟨[], [AllocCall.allocate 5 0], false⟩) := by
  constructor <;> decide

/-- C14 (amended): for n > 0, when the allocator raises an allocation error both
allocate members fail with it and return no view; when the allocator reports
the failure by returning the null pointer they return the view (null, n). -/
theorem C14_allocate_failure (A : Allocator) (h : Heap) (n : Nat) (hn : 0 < n) :
    (A h n = AllocResult.raise →
        device_coordinator.allocate A h n = none ∧ DeviceCoordinator.allocate A h n = none) ∧
      (A h n = AllocResult.block 0 →
        ∃ h1, device_coordinator.allocate A h n = some (⟨0, n⟩, h1) ∧
          DeviceCoordinator.allocate A h n = some (⟨0, n⟩, h1)) := by
  constructor
  · intro hA
    rw [allocate_eq]
    simp [device_coordinator.allocate, Heap.allocate, hn, hA]
  · intro hA
    rw [allocate_eq]
    exact ⟨_, device_allocate_block A h n 0 hn hA, device_allocate_block A h n 0 hn hA⟩

/-- C14 witness: a raising allocator and a null-returning allocator, asked for 5
elements. -/
theorem C14_allocate_failure_witness :
    (device_coordinator.allocate raising_allocator Heap.init 5 = none ∧
        DeviceCoordinator.allocate raising_allocator Heap.init 5 = none) ∧
      (∃ h1, device_coordinator.allocate null_allocator Heap.init 5 = some (⟨0, 5⟩, h1) ∧
        DeviceCoordinator.allocate null_allocator Heap.init 5 = some (⟨0, 5⟩, h1)) :=
  ⟨(C14_allocate_failure raising_allocator Heap.init 5 (by decide)).1 rfl,
    (C14_allocate_failure null_allocator Heap.init 5 (by decide)).2 rfl⟩

/-- C15: free(v) makes the one call deallocate(v.data(), v.size()) exactly when
v.data() is non-null and no call otherwise, and always leaves v with null
pointer and size 0; a second free on the now empty view makes no call and
leaves it empty. -/
theorem C15_free_spec (h : Heap) (v : ArrayView) :
    (device_coordinator.free h v).1 = ⟨0, 0⟩ ∧
      (device_coordinator.free h v).2.calls =
        (if v.data ≠ 0 then h.calls ++ [AllocCall.deallocate v.data v.size] else h.calls) ∧
      device_coordinator.free (device_coordinator.free h v).2 (device_coordinator.free h v).1 =
        (⟨0, 0⟩, (device_coordinator.free h v).2) := by
  refine ⟨rfl, ?_, ?_⟩
  · by_cases hv : v.data = 0 <;> simp [device_coordinator.free, Heap.deallocate, hv]
  · simp [device_coordinator.free, ArrayBase.reset, ArrayBase.data]

/-- C16: for same-space views from and to with equal sizes that do not overlap,
copy(from, to) of either device coordinator returns normally in a checked and
in an unchecked build; afterwards to[i] holds the former from[i] for every
i < from.size(), the elements of from are unchanged, no address outside the
range of to has changed, and to has kept its pointer and size (from is a const
reference). -/
theorem C16_copy_spec {T : Type} (checked : Bool) (from_ to_ : ArrayView) (mem : Nat → T)
    (hsz : from_.size = to_.size) (hov : from_.overlaps to_ = false) :
    (∃ m, device_coordinator.copy checked from_ to_ mem = CopyResult.done m to_ ∧
        (∀ i, i < from_.size → m (to_.data + i) = mem (from_.data + i)) ∧
        (∀ i, i < from_.size → m (from_.data + i) = mem (from_.data + i)) ∧
        (∀ a, ¬ to_.in_range a → m a = mem a)) ∧
      (∃ m, DeviceCoordinator.copy checked from_ to_ mem = CopyResult.done m to_ ∧
        (∀ i, i < from_.size → m (to_.data + i) = mem (from_.data + i)) ∧
        (∀ i, i < from_.size → m (from_.data + i) = mem (from_.data + i)) ∧
        (∀ a, ¬ to_.in_range a → m a = mem a)) := by
  constructor
  · refine ⟨_, device_copy_done checked from_ to_ mem hsz hov, ?_⟩
    rw [std_copy_view from_ to_ mem hsz hov]
    exact cudaMemcpy_spec from_ to_ mem hsz hov
  · refine ⟨cudaMemcpy mem to_.begin_ from_.begin_ from_.size, ?_,
      cudaMemcpy_spec from_ to_ mem hsz hov⟩
    simp [DeviceCoordinator.copy, hsz, hov]

/-- C16 witness: copying the three elements at 10.. to the view at 20.. over the
memory holding its own address in every slot. -/
theorem C16_copy_spec_witness :
    ((ArrayBase.mk 10 3).size = (ArrayBase.mk 20 3).size ∧
        (ArrayBase.mk 10 3).overlaps ⟨20, 3⟩ = false) ∧
      (∃ m, device_coordinator.copy true ⟨10, 3⟩ ⟨20, 3⟩ (fun a : Nat => a) =
          CopyResult.done m ⟨20, 3⟩ ∧
        (∀ i, i < (ArrayBase.mk 10 3).size →
          m ((ArrayBase.mk 20 3).data + i) = (fun a : Nat => a) ((ArrayBase.mk 10 3).data + i)) ∧
        (∀ i, i < (ArrayBase.mk 10 3).size →
          m ((ArrayBase.mk 10 3).data + i) = (fun a : Nat => a) ((ArrayBase.mk 10 3).data + i)) ∧
        (∀ a, ¬ (ArrayBase.mk 20 3).in_range a → m a = (fun a : Nat => a) a)) :=
  ⟨⟨by decide, by decide⟩,
    (C16_copy_spec true ⟨10, 3⟩ ⟨20, 3⟩ (fun a : Nat => a) (by decide) (by decide)).1⟩

/-- C17: in a checked build copy(from, to) fails on an assertion exactly when
from.size() != to.size() or from.overlaps(to); when it fails the memory is the
one before the call, so no element of to has been written. -/
theorem C17_copy_fails_iff {T : Type} (from_ to_ : ArrayView) (mem : Nat → T) :
    ((device_coordinator.copy true from_ to_ mem).failed = true ↔
        (from_.size ≠ to_.size ∨ from_.overlaps to_ = true)) ∧
      ((device_coordinator.copy true from_ to_ mem).failed = true →
        (device_coordinator.copy true from_ to_ mem).memory = mem) := by
  by_cases hsz : from_.size = to_.size <;> by_cases hov : from_.overlaps to_ = true <;>
    simp [device_coordinator.copy, CopyResult.failed, CopyResult.memory, hsz, hov]

/-- C17 witness: the views (0, 3) and (1, 3) overlap, the copy fails and the
memory is untouched. -/
theorem C17_copy_fails_iff_witness :
    (device_coordinator.copy true ⟨0, 3⟩ ⟨1, 3⟩ (fun a : Nat => a)).failed = true ∧
      (device_coordinator.copy true ⟨0, 3⟩ ⟨1, 3⟩ (fun a : Nat => a)).memory = (fun a : Nat => a) :=
  ⟨by decide,
    (C17_copy_fails_iff ⟨0, 3⟩ ⟨1, 3⟩ (fun a : Nat => a)).2 (by decide)⟩

/-- C20 (the code at the failing input): the copy overload for a source view bound
to an unsupported coordinator is accepted, its static_assert(true, ...) never
fires; the call returns normally and leaves memory and destination untouched. -/
theorem C20_copy_other_accepted {T : Type} (from_ to_ : ArrayView) (mem : Nat → T) :
    DeviceCoordinator.static_assert true = some () ∧
      DeviceCoordinator.copy_other from_ to_ mem = some (mem, to_) :=
  ⟨rfl, rfl⟩

/-! ### Arrays: copy construction, copy assignment, moves -/

/-- Helper: the constructor from a view, once the allocation and the two
assertions of copy have gone through. -/
theorem ctor_view_result {T : Type} (A : Allocator) (checked : Bool) (w : World T) (i : Nat)
    (other self : ArrayView) (h1 : Heap) (hi : w.arrays i = none)
    (ha : device_coordinator.allocate A w.heap other.size = some (self, h1))
    (hsz : other.size = self.size) (hov : other.overlaps self = false) :
    Array.ctor_view A checked w i other =
      some ⟨cudaMemcpy w.mem self.begin_ other.begin_ other.size, h1,
        Function.update w.arrays i (some self)⟩ := by
  simp [Array.ctor_view, hi, ha, device_copy_done checked other self w.mem hsz hov,
    std_copy_view other self w.mem hsz hov]

/-- Helper: overlaps read in the other direction. -/
theorem overlaps_comm (a b : ArrayBase) : a.overlaps b = b.overlaps a := by
  simp [ArrayBase.overlaps, Bool.or_comm]

/-- Helper: overlaps is false exactly when one range ends before the other starts. -/
theorem overlaps_false_iff (a b : ArrayBase) :
    a.overlaps b = false ↔
      (b.pointer_ + b.size_ ≤ a.pointer_ ∨ a.pointer_ + a.size_ ≤ b.pointer_) := by
  rw [← Bool.not_eq_true, overlaps_iff_lt]
  omega

/-- Helper: the allocation made by a copy construction, under the assumption that
a non-empty request gets a fresh block away from the source. -/
theorem allocate_for_copy (A : Allocator) (h : Heap) (other : ArrayView) (q : Nat)
    (hA : 0 < other.size → A h other.size = AllocResult.block q ∧ q ≠ 0 ∧
      (q + other.size ≤ other.data ∨ other.data + other.size ≤ q)) :
    ∃ self h1, device_coordinator.allocate A h other.size = some (self, h1) ∧
      other.size = self.size ∧ other.overlaps self = false := by
  by_cases hn : 0 < other.size
  · obtain ⟨hb, _, hd⟩ := hA hn
    refine ⟨⟨q, other.size⟩, _, device_allocate_block A h other.size q hn hb, rfl, ?_⟩
    rw [overlaps_false_iff]
    simp only [ArrayBase.size, ArrayBase.data] at hd
    simp only [ArrayBase.size]
    omega
  · have h0 : other.size = 0 := by omega
    refine ⟨⟨0, 0⟩, h, ?_, ?_, ?_⟩
    · rw [h0]; exact device_allocate_zero A h
    · rw [h0]; rfl
    · rw [overlaps_false_iff]
      simp only [ArrayBase.size] at h0
      simp [h0]

/-- C12: copy-constructing the Array i from a source view (for the Array-to-Array
constructor: the view of a live Array), where a non-empty request is answered
by a fresh non-null block away from the source, returns normally in either
build.  The new Array has the size of the source and its elements; its buffer
does not overlap the source; the memory of the source and every other Array
object are unchanged; a later write to any element of the copy leaves every
element of the source as it was. -/
theorem C12_copy_construct {T : Type} (A : Allocator) (checked : Bool) (w : World T) (i : Nat)
    (other : ArrayView) (q : Nat) (hi : w.arrays i = none)
    (hA : 0 < other.size → A w.heap other.size = AllocResult.block q ∧ q ≠ 0 ∧
      (q + other.size ≤ other.data ∨ other.data + other.size ≤ q)) :
    ∃ w1 self, Array.ctor_view A checked w i other = some w1 ∧
      (∀ j, w.arrays j = some other → Array.ctor_copy A checked w i j = some w1) ∧
      w1.arrays i = some self ∧ self.size = other.size ∧
      (∀ k, k < other.size → w1.mem (self.data + k) = w.mem (other.data + k)) ∧
      self.overlaps other = false ∧ other.overlaps self = false ∧
      (∀ k, k < other.size → w1.mem (other.data + k) = w.mem (other.data + k)) ∧
      (∀ j, j ≠ i → w1.arrays j = w.arrays j) ∧
      (∀ k x k2, k < self.size → k2 < other.size →
        Function.update w1.mem (self.data + k) x (other.data + k2) = w.mem (other.data + k2)) := by
  obtain ⟨self, h1, ha, hsz, hov⟩ := allocate_for_copy A w.heap other q hA
  have hres := ctor_view_result A checked w i other self h1 hi ha hsz hov
  obtain ⟨hto, hfrom, _⟩ := cudaMemcpy_spec other self w.mem hsz hov
  refine ⟨_, self, hres, ?_, ?_, hsz.symm, hto, ?_, hov, hfrom, ?_, ?_⟩
  · intro j hj
    simp only [Array.ctor_copy, hj]
    exact hres
  · simp
  · rw [overlaps_comm]; exact hov
  · intro j hj
    simp [Function.update_noteq hj]
  · intro k x k2 hk hk2
    have hd := (overlaps_false_iff other self).mp hov
    simp only [ArrayBase.size] at hk hk2 hsz
    have hne : other.data + k2 ≠ self.data + k := by
      simp only [ArrayBase.data]
      omega
    rw [Function.update_noteq hne]
    exact hfrom k2 hk2

/-- C12 witness: the Array 1 copy-constructed from the view (10, 3), with the
bump allocator on a heap whose only live block is (10, 3): the copy is the
view (14, 3). -/
theorem C12_copy_construct_witness :
    ∃ w1 self,
      Array.ctor_view bump_allocator true
        (World.mk (fun a : Nat => a) ⟨[(10, 3)], [], false⟩ (fun _ => none)) 1 ⟨10, 3⟩ = some w1 ∧
      (∀ j, (World.mk (fun a : Nat => a) ⟨[(10, 3)], [], false⟩ (fun _ => none)).arrays j =
          some ⟨10, 3⟩ →
        Array.ctor_copy bump_allocator true
          (World.mk (fun a : Nat => a) ⟨[(10, 3)], [], false⟩ (fun _ => none)) 1 j = some w1) ∧
      w1.arrays 1 = some self ∧ self.size = (ArrayBase.mk 10 3).size ∧
      (∀ k, k < (ArrayBase.mk 10 3).size →
        w1.mem (self.data + k) = (fun a : Nat => a) ((ArrayBase.mk 10 3).data + k)) ∧
      self.overlaps ⟨10, 3⟩ = false ∧ (ArrayBase.mk 10 3).overlaps self = false ∧
      (∀ k, k < (ArrayBase.mk 10 3).size →
        w1.mem ((ArrayBase.mk 10 3).data + k) = (fun a : Nat => a) ((ArrayBase.mk 10 3).data + k)) ∧
      (∀ j, j ≠ 1 → w1.arrays j = (fun _ => none) j) ∧
      (∀ k x k2, k < self.size → k2 < (ArrayBase.mk 10 3).size →
        Function.update w1.mem (self.data + k) x ((ArrayBase.mk 10 3).data + k2) =
          (fun a : Nat => a) ((ArrayBase.mk 10 3).data + k2)) :=
  C12_copy_construct bump_allocator true
    (World.mk (fun a : Nat => a) ⟨[(10, 3)], [], false⟩ (fun _ => none)) 1 ⟨10, 3⟩ 14 rfl
    (fun _ => ⟨rfl, by decide, by decide⟩)

/-- Helper: copy assignment between two distinct Arrays, where a non-empty request
is answered by a fresh non-null block away from the source: the target takes
the length and the elements of the source, and the source keeps its view and
its elements. -/
theorem copy_assign_distinct {T : Type} (A : Allocator) (checked : Bool) (w : World T)
    (i j : Nat) (self other : ArrayView) (q : Nat) (hij : i ≠ j)
    (hi : w.arrays i = some self) (hj : w.arrays j = some other)
    (hA : 0 < other.size →
      A (device_coordinator.free w.heap self).2 other.size = AllocResult.block q ∧ q ≠ 0 ∧
        (q + other.size ≤ other.data ∨ other.data + other.size ≤ q)) :
    ∃ w1 dst, Array.copy_assign A checked w i j = some w1 ∧
      w1.arrays i = some dst ∧ dst.size = other.size ∧
      (∀ k, k < other.size → w1.mem (dst.data + k) = w.mem (other.data + k)) ∧
      w1.arrays j = some other ∧
      (∀ k, k < other.size → w1.mem (other.data + k) = w.mem (other.data + k)) := by
  obtain ⟨dst, h2, ha, hsz, hov⟩ := allocate_for_copy A _ other q hA
  obtain ⟨hto, hfrom, _⟩ := cudaMemcpy_spec other dst w.mem hsz hov
  have hji : j ≠ i := fun h => hij h.symm
  have hdst : ArrayView.reset2 (device_coordinator.free w.heap self).1 dst.data other.size =
      dst := by
    cases dst
    simp only [ArrayBase.size] at hsz
    simp only [ArrayView.reset2, ArrayBase.set, ArrayBase.data, ArrayBase.size, hsz]
  refine ⟨⟨cudaMemcpy w.mem dst.begin_ other.begin_ other.size, h2,
      Function.update w.arrays i (some dst)⟩, dst, ?_, ?_, hsz.symm, hto, ?_, hfrom⟩
  · simp only [Array.copy_assign, hi, Function.update_noteq hji, hj, ha, hdst,
      device_copy_done checked other dst w.mem hsz hov, std_copy_view other dst w.mem hsz hov,
      Function.update_idem]
  · simp
  · simp [Function.update_noteq hji, hj]

/-- C11 (the code at the failing input): an Array of three elements is built and
then assigned to itself; the assignment returns normally and leaves the Array
empty, with null pointer and size 0, its block deallocated. -/
theorem C11_self_assign_empties :
    (∃ w, run bump_allocator true (World.init (fun a : Nat => a)) [Op.construct_n 0 3] = some w ∧
        w.arrays 0 = some ⟨1, 3⟩) ∧
      (∃ w, run bump_allocator true (World.init (fun a : Nat => a))
          [Op.construct_n 0 3, Op.copy_assign 0 0] = some w ∧
        w.arrays 0 = some ⟨0, 0⟩ ∧ w.heap.live = [] ∧
        w.heap.calls = [AllocCall.allocate 3 1, AllocCall.deallocate 1 3]) :=
  ⟨⟨_, rfl, rfl⟩, ⟨_, rfl, rfl, rfl, rfl⟩⟩

/-- Helper: the state after a move construction. -/
theorem move_ctor_at_result {T : Type} (w : World T) (i j : Nat) (o : ArrayView)
    (hi : w.arrays i = none) (hj : w.arrays j = some o) :
    Array.move_ctor_at w i j =
      some { w with
        arrays := Function.update (Function.update w.arrays j (some ⟨0, 0⟩)) i (some o) } := by
  simp only [Array.move_ctor_at, hi, hj]
  rfl

/-- Helper: the state after a move assignment. -/
theorem move_assign_at_result {T : Type} (w : World T) (i j : Nat) (s o : ArrayView)
    (hi : w.arrays i = some s) (hj : w.arrays j = some o) :
    Array.move_assign_at w i j =
      some { w with
        arrays := Function.update (Function.update w.arrays j (some s)) i (some o) } := by
  simp only [Array.move_assign_at, hi, hj]
  rfl

/-- C19: move construction and move assignment of an Array return normally on
live operands and leave the allocator state (live blocks and call trace) and
the whole memory as they were: no allocate, no deallocate, no copy. -/
theorem C19_move_frame {T : Type} (w : World T) (i j : Nat) :
    (∀ o, w.arrays i = none → w.arrays j = some o →
        ∃ w1, Array.move_ctor_at w i j = some w1 ∧ w1.heap = w.heap ∧ w1.mem = w.mem) ∧
      (∀ s o, w.arrays i = some s → w.arrays j = some o →
        ∃ w1, Array.move_assign_at w i j = some w1 ∧ w1.heap = w.heap ∧ w1.mem = w.mem) := by
  constructor
  · intro o hi hj
    exact ⟨_, move_ctor_at_result w i j o hi hj, rfl, rfl⟩
  · intro s o hi hj
    exact ⟨_, move_assign_at_result w i j s o hi hj, rfl, rfl⟩

/-- C19 witness: the Array 0 holding (1, 3) is moved into the new Array 1, and the
Arrays 0 and 2 are move-assigned; heap and memory stay put. -/
theorem C19_move_frame_witness :
    (∃ w1, Array.move_ctor_at
        (World.mk (fun a : Nat => a) ⟨[(1, 3)], [AllocCall.allocate 3 1], false⟩
          (fun k => if k = 0 then some ⟨1, 3⟩ else if k = 2 then some ⟨0, 0⟩ else none)) 1 0 =
          some w1 ∧
        w1.heap = ⟨[(1, 3)], [AllocCall.allocate 3 1], false⟩ ∧ w1.mem = (fun a : Nat => a)) ∧
      (∃ w1, Array.move_assign_at
        (World.mk (fun a : Nat => a) ⟨[(1, 3)], [AllocCall.allocate 3 1], false⟩
          (fun k => if k = 0 then some ⟨1, 3⟩ else if k = 2 then some ⟨0, 0⟩ else none)) 2 0 =
          some w1 ∧
        w1.heap = ⟨[(1, 3)], [AllocCall.allocate 3 1], false⟩ ∧ w1.mem = (fun a : Nat => a)) :=
  ⟨(C19_move_frame
      (World.mk (fun a : Nat => a) ⟨[(1, 3)], [AllocCall.allocate 3 1], false⟩
        (fun k => if k = 0 then some ⟨1, 3⟩ else if k = 2 then some ⟨0, 0⟩ else none)) 1 0).1
      ⟨1, 3⟩ rfl rfl,
    (C19_move_frame
      (World.mk (fun a : Nat => a) ⟨[(1, 3)], [AllocCall.allocate 3 1], false⟩
        (fun k => if k = 0 then some ⟨1, 3⟩ else if k = 2 then some ⟨0, 0⟩ else none)) 2 0).2
      ⟨0, 0⟩ ⟨1, 3⟩ rfl rfl⟩

/-! ### The ownership invariant -/

/-- Helper: the empty view overlaps nothing. -/
theorem overlaps_empty_left (u : ArrayBase) : ArrayBase.overlaps ⟨0, 0⟩ u = false := by
  rw [overlaps_false_iff]; simp

/-- Helper: nothing overlaps the empty view. -/
theorem overlaps_empty_right (u : ArrayBase) : u.overlaps ⟨0, 0⟩ = false := by
  rw [overlaps_false_iff]; simp

/-- Helper: a non-empty view overlaps itself. -/
theorem overlaps_self_of_pos (v : ArrayBase) (h : 0 < v.size_) : v.overlaps v = true := by
  rw [overlaps_iff_lt]; omega

/-- Helper: the invariant holds before any Array exists. -/
theorem ownership_init : Ownership Heap.init (fun _ => none) where
  owns := by intro i v h; simp at h
  disjoint := by intro i j v u _ h; simp at h
  no_bad_free := rfl
  held := by intro b hb; simp [Heap.init] at hb
  nodup := List.nodup_nil
  proper := by intro b hb; simp [Heap.init] at hb
  counts := rfl

/-- Helper: an object that is not live, or is empty, may be set to the empty state. -/
theorem ownership_set_empty (h : Heap) (arr : Nat → Option ArrayView) (i : Nat)
    (ho : Ownership h arr) (hi : arr i = none ∨ arr i = some ⟨0, 0⟩) :
    Ownership h (Function.update arr i (some ⟨0, 0⟩)) where
  owns := by
    intro k v hk
    rw [Function.update_apply] at hk
    split at hk
    · left; exact (Option.some.inj hk).symm
    · exact ho.owns k v hk
  disjoint := by
    intro k1 k2 v u hne h1 h2
    rw [Function.update_apply] at h1 h2
    split at h1
    · rw [← Option.some.inj h1]; exact overlaps_empty_left u
    · split at h2
      · rw [← Option.some.inj h2]; exact overlaps_empty_right v
      · exact ho.disjoint k1 k2 v u hne h1 h2
  no_bad_free := ho.no_bad_free
  held := by
    intro b hb
    obtain ⟨k, hk⟩ := ho.held b hb
    have hki : k ≠ i := by
      intro hki
      subst hki
      have hp := (ho.proper b hb).1
      rcases hi with hi | hi
      · rw [hi] at hk; exact Option.noConfusion hk
      · rw [hi] at hk
        have := Option.some.inj hk
        exact hp (congrArg ArrayBase.pointer_ this).symm
    exact ⟨k, by rw [Function.update_noteq hki]; exact hk⟩
  nodup := ho.nodup
  proper := ho.proper
  counts := ho.counts

/-- Helper: an object that is not live, or is empty, takes a fresh block. -/
theorem ownership_install (h : Heap) (arr : Nat → Option ArrayView) (i p n : Nat)
    (ho : Ownership h arr) (hi : arr i = none ∨ arr i = some ⟨0, 0⟩) (hp : p ≠ 0) (hn : 0 < n)
    (hf : ∀ b ∈ h.live, p + n ≤ b.1 ∨ b.1 + b.2 ≤ p) :
    Ownership ⟨(p, n) :: h.live, h.calls ++ [AllocCall.allocate n p], h.bad_free⟩
      (Function.update arr i (some ⟨p, n⟩)) where
  owns := by
    intro k v hk
    rw [Function.update_apply] at hk
    split at hk
    · right
      rw [← Option.some.inj hk]
      exact ⟨hp, hn, List.mem_cons_self _ _⟩
    · rcases ho.owns k v hk with h0 | ⟨h1, h2, h3⟩
      · left; exact h0
      · right; exact ⟨h1, h2, List.mem_cons_of_mem _ h3⟩
  disjoint := by
    have hnew : ∀ k u, arr k = some u → ArrayBase.overlaps ⟨p, n⟩ u = false := by
      intro k u hk
      rcases ho.owns k u hk with h0 | ⟨_, _, h3⟩
      · rw [h0]; exact overlaps_empty_right _
      · rw [overlaps_false_iff]
        have := hf _ h3
        simp only at this ⊢
        omega
    intro k1 k2 v u hne h1 h2
    rw [Function.update_apply] at h1 h2
    split at h1
    · rename_i hk1
      have hk2 : ¬ k2 = i := fun hk2 => hne (hk1.trans hk2.symm)
      rw [if_neg hk2] at h2
      rw [← Option.some.inj h1]
      exact hnew k2 u h2
    · split at h2
      · rw [← Option.some.inj h2, overlaps_comm]
        exact hnew k1 v h1
      · exact ho.disjoint k1 k2 v u hne h1 h2
  no_bad_free := ho.no_bad_free
  held := by
    intro b hb
    rcases List.mem_cons.mp hb with hb | hb
    · exact ⟨i, by rw [Function.update_same, hb]⟩
    · obtain ⟨k, hk⟩ := ho.held b hb
      have hki : k ≠ i := by
        intro hki
        subst hki
        have hp0 := (ho.proper b hb).1
        rcases hi with hi | hi
        · rw [hi] at hk; exact Option.noConfusion hk
        · rw [hi] at hk
          have := Option.some.inj hk
          exact hp0 (congrArg ArrayBase.pointer_ this).symm
      exact ⟨k, by rw [Function.update_noteq hki]; exact hk⟩
  nodup := by
    refine List.nodup_cons.mpr ⟨?_, ho.nodup⟩
    intro hmem
    have := hf _ hmem
    simp only at this
    omega
  proper := by
    intro b hb
    rcases List.mem_cons.mp hb with hb | hb
    · rw [hb]; exact ⟨hp, hn⟩
    · exact ho.proper b hb
  counts := by
    have := ho.counts
    simp only [List.countP_append, List.countP_singleton, AllocCall.is_allocate,
      AllocCall.is_deallocate, List.length_cons]
    simp
    omega

/-- Helper: the view and heap a fresh allocator gives keep the invariant. -/
theorem ownership_allocate (A : Allocator) (hA : A.fresh) (h h1 : Heap)
    (arr : Nat → Option ArrayView) (i n : Nat) (v : ArrayView)
    (ho : Ownership h arr) (hi : arr i = none ∨ arr i = some ⟨0, 0⟩)
    (ha : device_coordinator.allocate A h n = some (v, h1)) :
    Ownership h1 (Function.update arr i (some v)) := by
  by_cases hn : 0 < n
  · obtain ⟨p, hb, hp, hf⟩ := hA h n hn
    rw [device_allocate_block A h n p hn hb, if_neg hp] at ha
    have hv := (Prod.mk.inj (Option.some.inj ha))
    rw [← hv.1, ← hv.2]
    exact ownership_install h arr i p n ho hi hp hn hf
  · have h0 : n = 0 := by omega
    subst h0
    rw [device_allocate_zero] at ha
    have hv := (Prod.mk.inj (Option.some.inj ha))
    rw [← hv.1, ← hv.2]
    exact ownership_set_empty h arr i ho hi

/-- Helper: free on the view of a live Array keeps the invariant, the Array being
empty afterwards. -/
theorem ownership_release (h : Heap) (arr : Nat → Option ArrayView) (i : Nat) (self : ArrayView)
    (ho : Ownership h arr) (hi : arr i = some self) :
    Ownership (device_coordinator.free h self).2 (Function.update arr i (some ⟨0, 0⟩)) := by
  rcases ho.owns i self hi with h0 | ⟨hp, hn, hmem⟩
  · have hh : (device_coordinator.free h self).2 = h := by
      simp [device_coordinator.free, h0, ArrayBase.data]
    rw [hh]
    exact ownership_set_empty h arr i ho (Or.inr (h0 ▸ hi))
  · have hh : (device_coordinator.free h self).2 =
        ⟨h.live.erase (self.pointer_, self.size_),
          h.calls ++ [AllocCall.deallocate self.pointer_ self.size_], false⟩ := by
      simp [device_coordinator.free, Heap.deallocate, ArrayBase.data, ArrayBase.size, hp, hmem,
        ho.no_bad_free]
    rw [hh]
    have hother : ∀ k v, k ≠ i → arr k = some v →
        (v.pointer_, v.size_) ≠ (self.pointer_, self.size_) := by
      intro k v hk hv heq
      have hd := ho.disjoint k i v self hk hv hi
      have hvs : v = self := by
        cases v; cases self
        simp only [Prod.mk.injEq] at heq
        simp only [ArrayBase.mk.injEq]
        exact heq
      rw [hvs, overlaps_self_of_pos self hn] at hd
      exact Bool.noConfusion hd
    exact
      { owns := by
          intro k v hk
          rw [Function.update_apply] at hk
          split at hk
          · left; exact (Option.some.inj hk).symm
          · rename_i hki
            rcases ho.owns k v hk with h0 | ⟨h1, h2, h3⟩
            · left; exact h0
            · right
              exact ⟨h1, h2, (List.mem_erase_of_ne (hother k v hki hk)).mpr h3⟩
        disjoint := by
          intro k1 k2 v u hne h1 h2
          rw [Function.update_apply] at h1 h2
          split at h1
          · rw [← Option.some.inj h1]; exact overlaps_empty_left u
          · split at h2
            · rw [← Option.some.inj h2]; exact overlaps_empty_right v
            · exact ho.disjoint k1 k2 v u hne h1 h2
        no_bad_free := rfl
        held := by
          intro b hb
          have hb2 := (List.Nodup.mem_erase_iff ho.nodup).mp hb
          obtain ⟨k, hk⟩ := ho.held b hb2.2
          have hki : k ≠ i := by
            intro hki
            subst hki
            rw [hi] at hk
            have := Option.some.inj hk
            apply hb2.1
            rw [this]
          exact ⟨k, by rw [Function.update_noteq hki]; exact hk⟩
        nodup := List.Nodup.erase _ ho.nodup
        proper := by
          intro b hb
          exact ho.proper b (List.mem_of_mem_erase hb)
        counts := by
          have hc := ho.counts
          have hl := List.length_erase_of_mem hmem
          have hpos := List.length_pos_of_mem hmem
          simp only [List.countP_append, List.countP_singleton, AllocCall.is_allocate,
            AllocCall.is_deallocate]
          simp
          omega }

/-- Helper: an empty Array may cease to exist. -/
theorem ownership_drop (h : Heap) (arr : Nat → Option ArrayView) (i : Nat)
    (ho : Ownership h arr) (hi : arr i = some ⟨0, 0⟩) :
    Ownership h (Function.update arr i none) where
  owns := by
    intro k v hk
    rw [Function.update_apply] at hk
    split at hk
    · exact Option.noConfusion hk
    · exact ho.owns k v hk
  disjoint := by
    intro k1 k2 v u hne h1 h2
    rw [Function.update_apply] at h1 h2
    split at h1
    · exact Option.noConfusion h1
    · split at h2
      · exact Option.noConfusion h2
      · exact ho.disjoint k1 k2 v u hne h1 h2
  no_bad_free := ho.no_bad_free
  held := by
    intro b hb
    obtain ⟨k, hk⟩ := ho.held b hb
    have hki : k ≠ i := by
      intro hki
      subst hki
      rw [hi] at hk
      have := Option.some.inj hk
      exact (ho.proper b hb).1 (congrArg ArrayBase.pointer_ this).symm
    exact ⟨k, by rw [Function.update_noteq hki]; exact hk⟩
  nodup := ho.nodup
  proper := ho.proper
  counts := ho.counts

/-- Helper: exchanging the view states of two live Arrays keeps the invariant. -/
theorem ownership_swap (h : Heap) (arr : Nat → Option ArrayView) (i j : Nat) (a b : ArrayView)
    (ho : Ownership h arr) (hi : arr i = some a) (hj : arr j = some b) :
    Ownership h (Function.update (Function.update arr j (some a)) i (some b)) := by
  have hfun : Function.update (Function.update arr j (some a)) i (some b) =
      fun k => arr (Equiv.swap i j k) := by
    funext k
    rw [Function.update_apply, Function.update_apply, Equiv.swap_apply_def]
    by_cases hki : k = i
    · simp [hki, hj]
    · by_cases hkj : k = j
      · subst hkj
        simp [hki, hi]
      · simp [hki, hkj]
  rw [hfun]
  exact
    { owns := fun k v hk => ho.owns _ v hk
      disjoint := fun k1 k2 v u hne h1 h2 =>
        ho.disjoint _ _ v u (fun he => hne ((Equiv.swap i j).injective he)) h1 h2
      no_bad_free := ho.no_bad_free
      held := by
        intro c hc
        obtain ⟨k, hk⟩ := ho.held c hc
        exact ⟨Equiv.swap i j k, by simp only [Equiv.swap_apply_self]; exact hk⟩
      nodup := ho.nodup
      proper := ho.proper
      counts := ho.counts }

/-- Helper: a copy that returns hands back the view it was given. -/
theorem device_copy_to {T : Type} (checked : Bool) (from_ to_ : ArrayView) (mem m : Nat → T)
    (t : ArrayView) (h : device_coordinator.copy checked from_ to_ mem = CopyResult.done m t) :
    t = to_ := by
  unfold device_coordinator.copy at h
  split at h
  · exact CopyResult.noConfusion h
  · split at h
    · exact CopyResult.noConfusion h
    · injection h with _ h2
      exact h2.symm

/-- Helper: the view returned by allocate(n) has length n. -/
theorem device_allocate_size (A : Allocator) (h h1 : Heap) (n : Nat) (v : ArrayView)
    (ha : device_coordinator.allocate A h n = some (v, h1)) : v.size_ = n := by
  unfold device_coordinator.allocate at ha
  split at ha
  · split at ha
    · exact Option.noConfusion ha
    · have hv := (Prod.mk.inj (Option.some.inj ha)).1
      rw [← hv]
  · have hv := (Prod.mk.inj (Option.some.inj ha)).1
    rw [← hv]

/-- Helper: the constructor from a view keeps the invariant. -/
theorem ctor_view_preserves {T : Type} (A : Allocator) (hA : A.fresh) (checked : Bool)
    (w w1 : World T) (i : Nat) (other : ArrayView) (ho : Ownership w.heap w.arrays)
    (hs : Array.ctor_view A checked w i other = some w1) : Ownership w1.heap w1.arrays := by
  unfold Array.ctor_view at hs
  split at hs
  · exact Option.noConfusion hs
  · rename_i hi
    split at hs
    · exact Option.noConfusion hs
    · rename_i self h1 ha
      split at hs
      · exact Option.noConfusion hs
      · rename_i m self1 hc
        have hself := device_copy_to checked other self w.mem m self1 hc
        rw [← Option.some.inj hs, hself]
        exact ownership_allocate A hA w.heap h1 w.arrays i other.size self ho (Or.inl hi) ha

/-- Helper: the copy assignment keeps the invariant. -/
theorem copy_assign_preserves {T : Type} (A : Allocator) (hA : A.fresh) (checked : Bool)
    (w w1 : World T) (i j : Nat) (ho : Ownership w.heap w.arrays)
    (hs : Array.copy_assign A checked w i j = some w1) : Ownership w1.heap w1.arrays := by
  unfold Array.copy_assign at hs
  split at hs
  · exact Option.noConfusion hs
  · rename_i self hi
    have hrel := ownership_release w.heap w.arrays i self ho hi
    simp only at hs
    split at hs
    · exact Option.noConfusion hs
    · rename_i other hj
      split at hs
      · exact Option.noConfusion hs
      · rename_i ptr h2 ha
        split at hs
        · exact Option.noConfusion hs
        · rename_i other2 hj2
          split at hs
          · exact Option.noConfusion hs
          · rename_i m self3 hc
            have hself := device_copy_to checked _ _ w.mem m self3 hc
            have hsz := device_allocate_size A _ h2 other.size ptr ha
            have hptr : ArrayView.reset2 (device_coordinator.free w.heap self).1 ptr.data
                other.size = ptr := by
              cases ptr
              simp only [ArrayView.reset2, ArrayBase.set, ArrayBase.data, ArrayBase.size] at hsz ⊢
              rw [hsz]
            rw [← Option.some.inj hs, hself, hptr]
            simp only [Function.update_idem]
            have hinst := ownership_allocate A hA _ h2
              (Function.update w.arrays i (some ⟨0, 0⟩)) i other.size ptr hrel
              (Or.inr (Function.update_same _ _ _)) ha
            simp only [Function.update_idem] at hinst
            exact hinst

/-- Helper: every Array operation keeps the invariant. -/
theorem step_preserves {T : Type} (A : Allocator) (hA : A.fresh) (checked : Bool)
    (w w1 : World T) (op : Op) (ho : Ownership w.heap w.arrays)
    (hs : step A checked w op = some w1) : Ownership w1.heap w1.arrays := by
  cases op with
  | default_construct i =>
    simp only [step, Array.ctor_default] at hs
    split at hs
    · exact Option.noConfusion hs
    · rename_i hi
      rw [← Option.some.inj hs]
      exact ownership_set_empty w.heap w.arrays i ho (Or.inl hi)
  | construct_n i n =>
    simp only [step, Array.ctor_n] at hs
    split at hs
    · exact Option.noConfusion hs
    · rename_i hi
      split at hs
      · exact Option.noConfusion hs
      · rename_i self h1 ha
        rw [← Option.some.inj hs]
        exact ownership_allocate A hA w.heap h1 w.arrays i n self ho (Or.inl hi) ha
  | construct_view i other =>
    exact ctor_view_preserves A hA checked w w1 i other ho hs
  | copy_construct i j =>
    simp only [step, Array.ctor_copy] at hs
    split at hs
    · exact Option.noConfusion hs
    · exact ctor_view_preserves A hA checked w w1 i _ ho hs
  | copy_assign i j =>
    exact copy_assign_preserves A hA checked w w1 i j ho hs
  | move_construct i j =>
    simp only [step] at hs
    cases hi : w.arrays i with
    | some s => simp [Array.move_ctor_at, hi] at hs
    | none =>
      cases hj : w.arrays j with
      | none => simp [Array.move_ctor_at, hi, hj] at hs
      | some o =>
        rw [move_ctor_at_result w i j o hi hj] at hs
        rw [← Option.some.inj hs]
        have hij : j ≠ i := by
          intro hij
          rw [hij, hi] at hj
          exact Option.noConfusion hj
        have h1 := ownership_set_empty w.heap w.arrays i ho (Or.inl hi)
        have h2 := ownership_swap w.heap _ i j ⟨0, 0⟩ o h1 (Function.update_same _ _ _)
          (by rw [Function.update_noteq hij]; exact hj)
        have hfun : Function.update (Function.update (Function.update w.arrays i
            (some (ArrayBase.mk 0 0))) j (some ⟨0, 0⟩)) i (some o) =
            Function.update (Function.update w.arrays j (some ⟨0, 0⟩)) i (some o) := by
          rw [Function.update_comm hij.symm, Function.update_idem]
        rw [hfun] at h2
        exact h2
  | move_assign i j =>
    simp only [step] at hs
    cases hi : w.arrays i with
    | none => simp [Array.move_assign_at, hi] at hs
    | some s =>
      cases hj : w.arrays j with
      | none => simp [Array.move_assign_at, hi, hj] at hs
      | some o =>
        rw [move_assign_at_result w i j s o hi hj] at hs
        rw [← Option.some.inj hs]
        exact ownership_swap w.heap w.arrays i j s o ho hi hj
  | destruct i =>
    simp only [step, Array.dtor] at hs
    split at hs
    · exact Option.noConfusion hs
    · rename_i self hi
      rw [← Option.some.inj hs]
      have h1 := ownership_release w.heap w.arrays i self ho hi
      have h2 := ownership_drop _ _ i h1 (Function.update_same _ _ _)
      rw [Function.update_idem] at h2
      exact h2

/-- Helper: a run of Array operations keeps the invariant. -/
theorem run_preserves {T : Type} (A : Allocator) (hA : A.fresh) (checked : Bool)
    (ops : List Op) : ∀ (w w1 : World T), Ownership w.heap w.arrays →
      run A checked w ops = some w1 → Ownership w1.heap w1.arrays := by
  induction ops with
  | nil =>
    intro w w1 ho hr
    rw [← Option.some.inj hr]
    exact ho
  | cons op ops ih =>
    intro w w1 ho hr
    simp only [run] at hr
    split at hr
    · exact Option.noConfusion hr
    · rename_i w2 hs
      exact ih w2 w1 (step_preserves A hA checked w w2 op ho hs) hr

/-- Helper: the bump allocator starts past the end of every live block. -/
theorem bump_bound (l : List (Nat × Nat)) :
    ∀ b ∈ l, b.1 + b.2 ≤ (l.map (fun b => b.1 + b.2)).foldr max 0 := by
  induction l with
  | nil => intro b hb; simp at hb
  | cons a l ih =>
    intro b hb
    simp only [List.map_cons, List.foldr_cons]
    rcases List.mem_cons.mp hb with hb | hb
    · rw [hb]; exact le_max_left _ _
    · exact le_trans (ih b hb) (le_max_right _ _)

/-- Helper: the bump allocator hands out fresh disjoint blocks. -/
theorem bump_fresh : Allocator.fresh bump_allocator := by
  intro h n _
  refine ⟨_, rfl, by omega, ?_⟩
  intro b hb
  right
  have := bump_bound h.live b hb
  omega

/-- C18: with an allocator that hands out fresh disjoint blocks, in every state
reached from the start by Array operations (default construction,
construction by size, from a view, copy construction, copy assignment, move
construction, move assignment, destruction) the ownership invariant holds:
every live Array is empty (null pointer, size 0) or holds a currently allocated
block of exactly its size, no two live Arrays overlap, no deallocate ever
named a block that was not allocated at that moment, the allocated blocks are
pairwise distinct and each is held by a live Array, and the deallocations plus
the allocated blocks count the allocations.  Once no Array is live no block is
allocated and the deallocations equal the allocations in number. -/
theorem C18_ownership_invariant {T : Type} (A : Allocator) (hA : A.fresh) (checked : Bool)
    (ops : List Op) (mem : Nat → T) (w : World T)
    (hrun : run A checked (World.init mem) ops = some w) :
    Ownership w.heap w.arrays ∧
      ((∀ i, w.arrays i = none) →
        w.heap.live = [] ∧
          w.heap.calls.countP AllocCall.is_deallocate =
            w.heap.calls.countP AllocCall.is_allocate) := by
  have ho : Ownership w.heap w.arrays :=
    run_preserves A hA checked ops (World.init mem) w ownership_init hrun
  refine ⟨ho, ?_⟩
  intro hdead
  have hlive : w.heap.live = [] := by
    apply List.eq_nil_iff_forall_not_mem.mpr
    intro b hb
    obtain ⟨k, hk⟩ := ho.held b hb
    rw [hdead k] at hk
    exact Option.noConfusion hk
  refine ⟨hlive, ?_⟩
  have hc := ho.counts
  rw [hlive] at hc
  simpa using hc

/-- C18 witness: the sample program run with the bump allocator in a checked
build ends in a state that satisfies the invariant, with no block allocated and
no bad release. -/
theorem C18_ownership_invariant_witness :
    Allocator.fresh bump_allocator ∧
      ∃ w, run bump_allocator true (World.init (fun a : Nat => a)) sample_program = some w ∧
        (w.heap.live = [] ∧ w.heap.bad_free = false) ∧
        (Ownership w.heap w.arrays ∧
          ((∀ i, w.arrays i = none) →
            w.heap.live = [] ∧
              w.heap.calls.countP AllocCall.is_deallocate =
                w.heap.calls.countP AllocCall.is_allocate)) := by
  refine ⟨bump_fresh, ?_⟩
  have hs : (run bump_allocator true (World.init (fun a : Nat => a)) sample_program).isSome =
      true := by decide
  obtain ⟨w, hw⟩ := Option.isSome_iff_exists.mp hs
  have hl : (run bump_allocator true (World.init (fun a : Nat => a)) sample_program).map
      (fun w => (w.heap.live, w.heap.bad_free)) = some ([], false) := by decide
  rw [hw] at hl
  have hl2 := Prod.mk.inj (Option.some.inj hl)
  exact ⟨w, hw, ⟨hl2.1, hl2.2⟩,
    C18_ownership_invariant bump_allocator bump_fresh true sample_program _ w hw⟩

/-! ### Host to device copy, Storage, composed slices, Range slicing, the two coordinators -/

/-- C21 (as stated, refuted): in a build with NDEBUG the assertion is compiled
out, and the host-to-device copy of the three host elements at 10.. into the
device view (20, 2) of a different size does not fail: it returns normally and
has written the device address 22, past the end of to. -/
theorem C21_unchecked_mismatch_counterexample :
    (ArrayBase.mk 10 3).size ≠ (ArrayBase.mk 20 2).size ∧
      (DeviceCoordinator.copy_from_host false ⟨10, 3⟩ ⟨20, 2⟩
        (fun a : Nat => a) (fun _ => 0)).failed = false ∧
      ¬ (ArrayBase.mk 20 2).in_range 22 ∧
      (DeviceCoordinator.copy_from_host false ⟨10, 3⟩ ⟨20, 2⟩
        (fun a : Nat => a) (fun _ => 0)).device 22 = 12 := by
  refine ⟨by decide, by decide, by decide, by decide⟩

/-- C21 (amended): for a host view from and a device view to of equal sizes the
synchronous host-to-device copy returns normally in either build; afterwards
the device range of to holds the elements of from in order, the device memory
outside that range and the whole host memory (so from) are unchanged, the
returned token is already complete and the returned view equals to, which has
kept its pointer and length.  With different sizes the call fails on its
assertion in a checked build, with both memories untouched; in a build with
NDEBUG the assertion is compiled out and the call never fails. -/
theorem C21_host_to_device_copy {T : Type} (checked : Bool) (from_ to_ : ArrayView)
    (host dev : Nat → T) :
    (from_.size = to_.size →
        ∃ dev1 ev ret, DeviceCoordinator.copy_from_host checked from_ to_ host dev =
            HostCopyResult.done host dev1 ev ret to_ ∧
          (∀ i, i < from_.size → dev1 (to_.data + i) = host (from_.data + i)) ∧
          (∀ a, ¬ to_.in_range a → dev1 a = dev a) ∧
          ev.is_complete = true ∧
          ret.operator_eq to_ = true ∧ ret.data = to_.data ∧ ret.size = to_.size) ∧
      (from_.size ≠ to_.size →
        DeviceCoordinator.copy_from_host true from_ to_ host dev =
          HostCopyResult.assert_fail host dev) ∧
      (DeviceCoordinator.copy_from_host false from_ to_ host dev).failed = false := by
  refine ⟨?_, ?_, ?_⟩
  · intro hsz
    refine ⟨cudaMemcpyHostToDevice host dev to_.begin_ from_.begin_ from_.size, SynchEvent.mk,
      to_, ?_, ?_, ?_, rfl, ?_, rfl, rfl⟩
    · simp [DeviceCoordinator.copy_from_host, hsz]
    · intro i hi
      simp only [ArrayBase.size] at hi
      have h : to_.pointer_ ≤ to_.pointer_ + i ∧
          to_.pointer_ + i < to_.pointer_ + from_.size_ := by omega
      simp only [cudaMemcpyHostToDevice, ArrayBase.begin_, ArrayBase.data, ArrayBase.size]
      rw [if_pos h]
      exact congrArg host (by omega)
    · intro a ha
      simp only [ArrayBase.size] at hsz
      have h : ¬ (to_.pointer_ ≤ a ∧ a < to_.pointer_ + from_.size_) := by
        rw [hsz]; exact ha
      simp only [cudaMemcpyHostToDevice, ArrayBase.begin_, ArrayBase.size]
      rw [if_neg h]
    · simp [ArrayBase.operator_eq]
  · intro hne
    simp [DeviceCoordinator.copy_from_host, hne]
  · simp [DeviceCoordinator.copy_from_host, HostCopyResult.failed]

/-- C21 witness: three host elements at 10.. copied to the device view at 20..,
and a copy between views of sizes 3 and 2 in a checked build. -/
theorem C21_host_to_device_copy_witness :
    (∃ dev1 ev ret, DeviceCoordinator.copy_from_host true ⟨10, 3⟩ ⟨20, 3⟩
          (fun a : Nat => a) (fun _ => 0) =
          HostCopyResult.done (fun a : Nat => a) dev1 ev ret ⟨20, 3⟩ ∧
        (∀ i, i < (ArrayBase.mk 10 3).size →
          dev1 ((ArrayBase.mk 20 3).data + i) =
            (fun a : Nat => a) ((ArrayBase.mk 10 3).data + i)) ∧
        (∀ a, ¬ (ArrayBase.mk 20 3).in_range a → dev1 a = (fun _ => 0) a) ∧
        ev.is_complete = true ∧
        ret.operator_eq ⟨20, 3⟩ = true ∧ ret.data = (ArrayBase.mk 20 3).data ∧
        ret.size = (ArrayBase.mk 20 3).size) ∧
      DeviceCoordinator.copy_from_host true ⟨10, 3⟩ ⟨20, 2⟩ (fun a : Nat => a) (fun _ => 0) =
        HostCopyResult.assert_fail (fun a : Nat => a) (fun _ => 0) :=
  ⟨(C21_host_to_device_copy true ⟨10, 3⟩ ⟨20, 3⟩ (fun a : Nat => a) (fun _ => 0)).1 (by decide),
    (C21_host_to_device_copy true ⟨10, 3⟩ ⟨20, 2⟩ (fun a : Nat => a) (fun _ => 0)).2.1
      (by decide)⟩

/-- C22: for a Storage<T,N,M> s, a lane below M and a record i below N, the slice
s(lane) is a Storage<T,N,1> whose i-th element is s(i, lane), the physical
element of s at the flat index i*M + lane, which lies inside the N*M values of
s; i lies inside the N values of the slice. -/
theorem C22_storage_slice {T : Type} {N M : Nat} (s : Storage T N M) (lane i : Nat)
    (hl : lane < M) (hi : i < N) :
    (s.slice lane).at_flat i = s.at_lane i lane ∧
      s.at_lane i lane = s.at_flat (i * M + lane) ∧
      i * M + lane < s.number_of_values ∧ i < (s.slice lane).number_of_values := by
  refine ⟨rfl, rfl, ?_, ?_⟩
  · simp only [Storage.number_of_values]
    have h1 : (i + 1) * M ≤ N * M := Nat.mul_le_mul_right M hi
    have h2 : (i + 1) * M = i * M + M := Nat.succ_mul i M
    omega
  · simp only [Storage.number_of_values]
    omega

/-- C22 witness: the Storage of 4 records and 3 lanes whose element (i, j) is j,
sliced at lane 2: the element of record 3 is 2. -/
theorem C22_storage_slice_witness :
    ((Storage.mk (fun k => k % 3) : Storage Nat 4 3).slice 2).at_flat 3 = 2 ∧
      ((Storage.mk (fun k => k % 3) : Storage Nat 4 3).slice 2).at_flat 3 =
        (Storage.mk (fun k => k % 3) : Storage Nat 4 3).at_lane 3 2 ∧
      (Storage.mk (fun k => k % 3) : Storage Nat 4 3).at_lane 3 2 =
        (Storage.mk (fun k => k % 3) : Storage Nat 4 3).at_flat (3 * 3 + 2) ∧
      3 * 3 + 2 < (Storage.mk (fun k => k % 3) : Storage Nat 4 3).number_of_values ∧
      3 < ((Storage.mk (fun k => k % 3) : Storage Nat 4 3).slice 2).number_of_values :=
  ⟨by decide,
    C22_storage_slice (Storage.mk (fun k => k % 3) : Storage Nat 4 3) 2 3 (by decide)
      (by decide)⟩

/-- C23: for a view v of length L (below SIZE_MOD) and a <= b <= L,
c <= d <= b-a, the slice v(a, b) is accepted, and on it (c, d) is accepted and
equals the accepted v(a+c, a+d), and (c, end) is accepted and equals the
accepted v(a+c, b): same pointer, same length. -/
theorem C23_slice_compose (checked : Bool) (v : ArrayBase) (a b c d : Nat)
    (hab : a ≤ b) (hbL : b ≤ v.size_) (hcd : c ≤ d) (hd : d ≤ b - a)
    (hL : v.size_ < SIZE_MOD) :
    ∃ s, v.operator_call checked a b = some s ∧
      (∃ t u, s.operator_call checked c d = some t ∧
        v.operator_call checked (a + c) (a + d) = some u ∧
        t.operator_eq u = true ∧ t.data = u.data ∧ t.size = u.size) ∧
      (∃ t u, s.operator_call_end checked c = some t ∧
        v.operator_call checked (a + c) b = some u ∧
        t.operator_eq u = true ∧ t.data = u.data ∧ t.size = u.size) := by
  have hsL : (ArrayBase.mk (v.pointer_ + a) (b - a)).size_ < SIZE_MOD := by
    show b - a < SIZE_MOD
    omega
  refine ⟨⟨v.pointer_ + a, b - a⟩, operator_call_in_bounds checked v a b hab hbL hL, ?_, ?_⟩
  · refine ⟨_, _, operator_call_in_bounds checked ⟨v.pointer_ + a, b - a⟩ c d hcd hd hsL,
      operator_call_in_bounds checked v (a + c) (a + d) (by omega) (by omega) hL, ?_, ?_, ?_⟩
    · simp only [ArrayBase.operator_eq, Bool.and_eq_true, beq_iff_eq]
      omega
    · simp only [ArrayBase.data]; omega
    · simp only [ArrayBase.size]; omega
  · refine ⟨_, _,
      operator_call_end_in_bounds checked ⟨v.pointer_ + a, b - a⟩ c (by show c ≤ b - a; omega)
        hsL,
      operator_call_in_bounds checked v (a + c) b (by omega) hbL hL, ?_, ?_, ?_⟩
    · simp only [ArrayBase.operator_eq, Bool.and_eq_true, beq_iff_eq]
      omega
    · simp only [ArrayBase.data]; omega
    · simp only [ArrayBase.size]; omega

/-- C23 witness: the view (1000, 20) with a = 2, b = 12, c = 3, d = 7. -/
theorem C23_slice_compose_witness :
    ∃ s, (ArrayBase.mk 1000 20).operator_call true 2 12 = some s ∧
      (∃ t u, s.operator_call true 3 7 = some t ∧
        (ArrayBase.mk 1000 20).operator_call true (2 + 3) (2 + 7) = some u ∧
        t.operator_eq u = true ∧ t.data = u.data ∧ t.size = u.size) ∧
      (∃ t u, s.operator_call_end true 3 = some t ∧
        (ArrayBase.mk 1000 20).operator_call true (2 + 3) 12 = some u ∧
        t.operator_eq u = true ∧ t.data = u.data ∧ t.size = u.size) :=
  C23_slice_compose true ⟨1000, 20⟩ 2 12 3 7 (by decide) (by decide) (by decide) (by decide)
    (by decide)

/-- Helper: a view that overlaps a slice of v overlaps v. -/
theorem overlaps_of_slice (v w : ArrayBase) (a b : Nat) (hab : a ≤ b) (hbL : b ≤ v.size_)
    (h : ArrayBase.overlaps ⟨v.pointer_ + a, b - a⟩ w = true) : v.overlaps w = true := by
  rw [overlaps_iff_lt] at h ⊢
  simp only at h
  omega

/-- C24: for a view v (length below SIZE_MOD), a valid slice s = v(a, b) with
a <= b <= v.size() and any view w, if s overlaps w then v overlaps w; hence a
slice of v and a slice of a view that v does not overlap never overlap. -/
theorem C24_overlap_monotone (checked : Bool) (v w : ArrayBase) (a b : Nat)
    (hab : a ≤ b) (hbL : b ≤ v.size_) (hL : v.size_ < SIZE_MOD) :
    ∃ s, v.operator_call checked a b = some s ∧
      (s.overlaps w = true → v.overlaps w = true) ∧
      (∀ c d, c ≤ d → d ≤ w.size_ → w.size_ < SIZE_MOD → v.overlaps w = false →
        ∃ s2, w.operator_call checked c d = some s2 ∧
          s.overlaps s2 = false ∧ s2.overlaps s = false) := by
  refine ⟨⟨v.pointer_ + a, b - a⟩, operator_call_in_bounds checked v a b hab hbL hL,
    overlaps_of_slice v w a b hab hbL, ?_⟩
  intro c d hcd hdL hwL hvw
  refine ⟨⟨w.pointer_ + c, d - c⟩, operator_call_in_bounds checked w c d hcd hdL hwL, ?_⟩
  have hno : ArrayBase.overlaps ⟨v.pointer_ + a, b - a⟩ ⟨w.pointer_ + c, d - c⟩ = false := by
    rw [← Bool.not_eq_true]
    intro h1
    have h2 := overlaps_of_slice v _ a b hab hbL h1
    rw [overlaps_comm] at h2
    have h3 := overlaps_of_slice w v c d hcd hdL h2
    rw [overlaps_comm, hvw] at h3
    exact Bool.noConfusion h3
  exact ⟨hno, by rw [overlaps_comm]; exact hno⟩

/-- C24 witness: the slice (2, 5) of the view (1000, 10) is (1002, 3); it overlaps
the view (1003, 4), and so does the view itself; the views (1000, 10) and
(2000, 10) do not overlap, nor does that slice overlap the slice (1, 4) of the
second view. -/
theorem C24_overlap_monotone_witness :
    (ArrayBase.mk 1000 10).operator_call true 2 5 = some ⟨1002, 3⟩ ∧
      (ArrayBase.overlaps ⟨1002, 3⟩ ⟨1003, 4⟩ = true ∧
        (ArrayBase.mk 1000 10).overlaps ⟨1003, 4⟩ = true) ∧
      ((ArrayBase.mk 1000 10).overlaps ⟨2000, 10⟩ = false ∧
        ∃ s2, (ArrayBase.mk 2000 10).operator_call true 1 4 = some s2 ∧
          ArrayBase.overlaps ⟨1002, 3⟩ s2 = false ∧ s2.overlaps ⟨1002, 3⟩ = false) := by
  have hcall : (ArrayBase.mk 1000 10).operator_call true 2 5 = some ⟨1002, 3⟩ := by decide
  obtain ⟨s, hs, h1, -⟩ :=
    C24_overlap_monotone true ⟨1000, 10⟩ ⟨1003, 4⟩ 2 5 (by decide) (by decide) (by decide)
  obtain ⟨t, ht, -, h2⟩ :=
    C24_overlap_monotone true ⟨1000, 10⟩ ⟨2000, 10⟩ 2 5 (by decide) (by decide) (by decide)
  have hs1 : s = ⟨1002, 3⟩ := Option.some.inj (hs.symm.trans hcall)
  have ht1 : t = ⟨1002, 3⟩ := Option.some.inj (ht.symm.trans hcall)
  subst hs1
  subst ht1
  exact ⟨hcall, ⟨by decide, h1 (by decide)⟩, by decide,
    h2 1 4 (by decide) (by decide) (by decide) (by decide)⟩

/-- Helper: for a Range with begin <= end the Range slice and the index pair slice
have the same outcome in either build. -/
theorem operator_call_range_ordered (checked : Bool) (v : ArrayBase) (r : Range)
    (h : r.begin_ ≤ r.end_) :
    v.operator_call_range checked r = v.operator_call checked r.begin_ r.end_ := by
  cases checked
  · simp [ArrayBase.operator_call_range, ArrayBase.operator_call, cassert]
  · by_cases h2 : r.end_ ≤ v.size_
    · have h1 : r.begin_ ≤ v.size_ := le_trans h h2
      simp [ArrayBase.operator_call_range, ArrayBase.operator_call, cassert, h, h1, h2]
    · simp [ArrayBase.operator_call_range, ArrayBase.operator_call, cassert, h, h2]

/-- C25 (the code at the failing input): on the view (1000, 10) in a checked build
the Range with begin 5 and end 2 passes the assertion of the Range slice, which
returns a view of length 2^64 - 3, far above the length 10 of the view, while
the index pair slice v(5, 2) is rejected. -/
theorem C25_reversed_range_accepted :
    (ArrayBase.mk 1000 10).operator_call_range true ⟨5, 2⟩ =
        some ⟨1005, 18446744073709551613⟩ ∧
      (ArrayBase.mk 1000 10).operator_call true 5 2 = none ∧
      (ArrayBase.mk 1000 10).size < 18446744073709551613 := by
  refine ⟨by decide, by decide, by decide⟩

/-- C26: with the same allocator the two device coordinators agree.  The two
allocate members return the same outcome for every n and heap: the same view
(pointer and length) and the same heap, so the same allocator calls; the two
free members leave the same view, the empty one, and the same heap, so the same
deallocate calls. -/
theorem C26_coordinators_agree (A : Allocator) (h : Heap) (n : Nat) (v : ArrayView) :
    DeviceCoordinator.allocate A h n = device_coordinator.allocate A h n ∧
      (∀ r1 r2, DeviceCoordinator.allocate A h n = some r1 →
        device_coordinator.allocate A h n = some r2 →
        r1.1.data = r2.1.data ∧ r1.1.size = r2.1.size ∧ r1.2.calls = r2.2.calls) ∧
      DeviceCoordinator.free h v = device_coordinator.free h v ∧
      (DeviceCoordinator.free h v).1 = ⟨0, 0⟩ ∧ (device_coordinator.free h v).1 = ⟨0, 0⟩ ∧
      (DeviceCoordinator.free h v).2.calls = (device_coordinator.free h v).2.calls := by
  refine ⟨rfl, ?_, rfl, rfl, rfl, rfl⟩
  intro r1 r2 h1 h2
  rw [allocate_eq, h2] at h1
  rw [Option.some.inj h1]
  exact ⟨rfl, rfl, rfl⟩

/-- C26 witness: both allocate members asked for 5 elements of the bump allocator
on the initial heap. -/
theorem C26_coordinators_agree_witness :
    (ArrayBase.mk 1 5).data = (ArrayBase.mk 1 5).data ∧
      (ArrayBase.mk 1 5).size = (ArrayBase.mk 1 5).size ∧
      (Heap.mk [(1, 5)] [AllocCall.allocate 5 1] false).calls =
        (Heap.mk [(1, 5)] [AllocCall.allocate 5 1] false).calls :=
  (C26_coordinators_agree bump_allocator Heap.init 5 ⟨0, 0⟩).2.1
    (⟨1, 5⟩, ⟨[(1, 5)], [AllocCall.allocate 5 1], false⟩)
    (⟨1, 5⟩, ⟨[(1, 5)], [AllocCall.allocate 5 1], false⟩) (by decide) (by decide)

end memory
